import Mathlib

/-!
Shallow embedding of the identity-resolution engine of
`src/build/build_identity_map_fgid_to_mlbamid.py` and the text helpers of
`src/utils/text.py`, together with theorems settling the frozen claims.

Strings are modelled as Lean `String` (lists of Unicode code points), which
matches Python `str` for the Basic Latin and Latin-1 repertoire the
repository processes.  The Unicode-wide Python primitives (`str.casefold`,
`unicodedata` NFKD decomposition, the `\w` regex class, `str.isdigit`,
`str.split()` whitespace) are embedded by their restrictions to that
repertoire: explicit tables below cover ASCII and Latin-1, and characters
outside the tables are left untouched.
-/

namespace IdentityMap

/-- Characters treated as whitespace by Python `str.strip()` / `str.split()`
(restricted to the ASCII whitespace characters). -/
def isPySpace (c : Char) : Bool :=
  c = ' ' || c = '\t' || c = '\n' || c = '\r' || c = '\x0b' || c = '\x0c'

/-- Python `str.casefold`, restricted to ASCII and Latin-1: uppercase letters
map to lowercase, the sharp s expands to "ss", everything else is fixed. -/
def casefoldTable : List (Char × List Char) :=
  [ ('A', ['a']), ('B', ['b']), ('C', ['c']), ('D', ['d']), ('E', ['e']),
    ('F', ['f']), ('G', ['g']), ('H', ['h']), ('I', ['i']), ('J', ['j']),
    ('K', ['k']), ('L', ['l']), ('M', ['m']), ('N', ['n']), ('O', ['o']),
    ('P', ['p']), ('Q', ['q']), ('R', ['r']), ('S', ['s']), ('T', ['t']),
    ('U', ['u']), ('V', ['v']), ('W', ['w']), ('X', ['x']), ('Y', ['y']),
    ('Z', ['z']),
    ('À', ['à']), ('Á', ['á']), ('Â', ['â']), ('Ã', ['ã']), ('Ä', ['ä']),
    ('Å', ['å']), ('Æ', ['æ']), ('Ç', ['ç']), ('È', ['è']), ('É', ['é']),
    ('Ê', ['ê']), ('Ë', ['ë']), ('Ì', ['ì']), ('Í', ['í']), ('Î', ['î']),
    ('Ï', ['ï']), ('Ð', ['ð']), ('Ñ', ['ñ']), ('Ò', ['ò']), ('Ó', ['ó']),
    ('Ô', ['ô']), ('Õ', ['õ']), ('Ö', ['ö']), ('Ø', ['ø']), ('Ù', ['ù']),
    ('Ú', ['ú']), ('Û', ['û']), ('Ü', ['ü']), ('Ý', ['ý']), ('Þ', ['þ']),
    ('ß', ['s', 's']) ]

/-- Casefold one character (table-driven restriction of `str.casefold`). -/
def casefoldChar (c : Char) : List Char :=
  match casefoldTable.lookup c with
  | some r => r
  | none => [c]

/-- Casefold a character list. -/
def casefoldL (l : List Char) : List Char :=
  l.flatMap casefoldChar

/-- NFKD decomposition followed by dropping combining marks, restricted to
the accented Latin-1 letters (each maps to its base letter).  Mirrors
`strip_accents` of the build script. -/
def accentTable : List (Char × Char) :=
  [ ('À', 'A'), ('Á', 'A'), ('Â', 'A'), ('Ã', 'A'), ('Ä', 'A'), ('Å', 'A'),
    ('Ç', 'C'), ('È', 'E'), ('É', 'E'), ('Ê', 'E'), ('Ë', 'E'),
    ('Ì', 'I'), ('Í', 'I'), ('Î', 'I'), ('Ï', 'I'), ('Ñ', 'N'),
    ('Ò', 'O'), ('Ó', 'O'), ('Ô', 'O'), ('Õ', 'O'), ('Ö', 'O'),
    ('Ù', 'U'), ('Ú', 'U'), ('Û', 'U'), ('Ü', 'U'), ('Ý', 'Y'),
    ('à', 'a'), ('á', 'a'), ('â', 'a'), ('ã', 'a'), ('ä', 'a'), ('å', 'a'),
    ('ç', 'c'), ('è', 'e'), ('é', 'e'), ('ê', 'e'), ('ë', 'e'),
    ('ì', 'i'), ('í', 'i'), ('î', 'i'), ('ï', 'i'), ('ñ', 'n'),
    ('ò', 'o'), ('ó', 'o'), ('ô', 'o'), ('õ', 'o'), ('ö', 'o'),
    ('ù', 'u'), ('ú', 'u'), ('û', 'u'), ('ü', 'u'), ('ý', 'y'), ('ÿ', 'y') ]

/-- Combining diacritical marks (dropped by `strip_accents`). -/
def isCombining (c : Char) : Bool :=
  0x300 ≤ c.toNat && c.toNat ≤ 0x36F

/-- One-character step of `strip_accents`. -/
def stripAccentChar (c : Char) : List Char :=
  if isCombining c then []
  else
    match accentTable.lookup c with
    | some b => [b]
    | none => [c]

/-- Character-list version of `strip_accents` from the build script. -/
def stripAccentsL (l : List Char) : List Char :=
  l.flatMap stripAccentChar

/-- Python regex `\w` (word character), restricted to ASCII alphanumerics,
the underscore, and the Latin-1 letters. -/
def isWordChar (c : Char) : Bool :=
  ('0' ≤ c && c ≤ '9') || ('A' ≤ c && c ≤ 'Z') || ('a' ≤ c && c ≤ 'z') ||
  c = '_' ||
  ('À' ≤ c && c ≤ 'Ö') || ('Ø' ≤ c && c ≤ 'ö') || ('ø' ≤ c && c ≤ 'ÿ')

/-- The step `re.sub(r"[^\w\s]", " ", base)` of
`normalize_person_name_for_match`, applied per character. -/
def punctToSpace (c : Char) : Char :=
  if isWordChar c || isPySpace c then c else ' '

/-- Accumulator-based splitter behind `words`; the accumulator holds the
current in-progress word reversed. -/
def wordsAux : List Char → List Char → List (List Char)
  | [], acc => if acc.isEmpty then [] else [acc.reverse]
  | c :: rest, acc =>
    if isPySpace c then
      if acc.isEmpty then wordsAux rest [] else acc.reverse :: wordsAux rest []
    else wordsAux rest (c :: acc)

/-- Python `str.split()` with no separator: maximal runs of non-whitespace
characters, empty runs discarded. -/
def words (l : List Char) : List (List Char) :=
  wordsAux l []

/-- Python `" ".join(tokens)`. -/
def joinSpace (ws : List (List Char)) : List Char :=
  match ws with
  | [] => []
  | [w] => w
  | w :: rest => w ++ ' ' :: joinSpace rest

/-- Python `str.strip()` on a character list. -/
def pyStripL (l : List Char) : List Char :=
  ((l.dropWhile isPySpace).reverse.dropWhile isPySpace).reverse

/-- Python `str.strip()`. -/
def pyStrip (s : String) : String :=
  ⟨pyStripL s.data⟩

/-- Mirrors `norm_space` of `src/utils/text.py`:
`" ".join((s or "").strip().split())`.  The leading strip is absorbed by
`split()`, which already discards surrounding whitespace. -/
def norm_space (s : String) : String :=
  ⟨joinSpace (words s.data)⟩

/-- The generational suffix tokens `_SUFFIXES` of `src/utils/text.py`
(dropped only as final tokens). -/
def suffixTokens : List (List Char) :=
  [ ['j', 'r'], ['s', 'r'], ['i', 'i'], ['i', 'i', 'i'], ['i', 'v'],
    ['v'], ['v', 'i'] ]

/-- The loop `while toks and toks[-1] in _SUFFIXES: toks.pop()` of
`normalize_person_name_for_match`. -/
def dropTrailingSuffixes (toks : List (List Char)) : List (List Char) :=
  ((toks.reverse.dropWhile (fun t => decide (t ∈ suffixTokens))).reverse)

/-- Token pipeline of `normalize_person_name_for_match` from
`src/utils/text.py`: casefold after `norm_space`, replace non-word
non-space characters by spaces, split into tokens, drop trailing
generational suffixes. -/
def npnTokens (l : List Char) : List (List Char) :=
  dropTrailingSuffixes (words ((casefoldL (joinSpace (words l))).map punctToSpace))

/-- Character-list body of `normalize_person_name_for_match`. -/
def npnL (l : List Char) : List Char :=
  joinSpace (npnTokens l)

/-- Mirrors `normalize_person_name_for_match` of `src/utils/text.py`. -/
def normalize_person_name_for_match (s : String) : String :=
  ⟨npnL s.data⟩

/-- Mirrors `split_first_last_person` of `src/utils/text.py`: suffix-aware
split after `normalize_person_name_for_match`; the last token is the last
name and the remaining tokens joined are the first name. -/
def split_first_last_person (full_name : String) : String × String :=
  let toks := words (normalize_person_name_for_match full_name).data
  match toks.reverse with
  | [] => ("", "")
  | [t] => (⟨t⟩, "")
  | last :: restRev => (⟨joinSpace restRev.reverse⟩, ⟨last⟩)

/-- Mirrors `norm_text` of the build script: the build script imports
`norm_space` (not `text.norm_text`) under the alias `_norm_text_base` and
composes it with `strip_accents`, so this function collapses whitespace and
strips accents but performs no casefolding. -/
def norm_text (s : String) : String :=
  ⟨joinSpace (words (stripAccentsL s.data))⟩

/-- Mirrors `split_first_last` of the build script (used only by rule 4):
split on the build-script `norm_text`, last token is the last name. -/
def split_first_last (full_name : String) : String × String :=
  let toks := words (norm_text full_name).data
  match toks.reverse with
  | [] => ("", "")
  | [t] => (⟨t⟩, "")
  | last :: restRev => (⟨joinSpace restRev.reverse⟩, ⟨last⟩)

/-- Python `str.isdigit` restricted to the ASCII digits: nonempty and all
characters between `0` and `9`. -/
def pyIsDigit (s : String) : Bool :=
  !s.data.isEmpty && s.data.all (fun c => '0' ≤ c && c ≤ '9')

/-- Python `int(...)` on a string of ASCII digits. -/
def strToNat (s : String) : Nat :=
  s.data.foldl (fun n c => n * 10 + (c.toNat - 48)) 0

/-- Decimal digits of a positive natural, fuel-driven (fuel at least the
digit count). -/
def natDigitsAux : Nat → Nat → List Char
  | 0, _ => []
  | fuel + 1, n =>
    if n = 0 then []
    else natDigitsAux fuel (n / 10) ++ [Char.ofNat (48 + n % 10)]

/-- Python `str(n)` for a natural number. -/
def natToString (n : Nat) : String :=
  if n = 0 then "0" else ⟨natDigitsAux (n + 1) n⟩

/-- Python `str.split(sep)` for a one-character separator: every occurrence
splits, empty pieces are kept. -/
def splitOnSep (sep : Char) (l : List Char) : List (List Char) :=
  l.foldr
    (fun c acc =>
      if c = sep then [] :: acc
      else
        match acc with
        | w :: ws => (c :: w) :: ws
        | [] => [[c]])
    [[]]

/-- Python `s.split("T", 1)[0]`: the characters before the first `T`. -/
def beforeT (l : List Char) : List Char :=
  l.takeWhile (fun c => c ≠ 'T')

/-- Pipe-splitting used for organization fields:
`[x for x in s.split("|") if x.strip()]` — raw (unstripped) tokens whose
strip is nonempty. -/
def pipeTokens (s : String) : List String :=
  ((splitOnSep '|' s.data).filter (fun t => !(pyStripL t).isEmpty)).map
    (fun t => (⟨t⟩ : String))

/-- Mirrors `parse_ymd_from_iso` of the build script: strip, cut at `T`,
split on dashes, return the first three stripped parts or three empty
strings. -/
def parse_ymd_from_iso (s : String) : String × String × String :=
  let s := pyStrip s
  if s = "" then ("", "", "")
  else
    let parts := splitOnSep '-' (beforeT s.data)
    if parts.length ≥ 3 then
      (⟨pyStripL (parts.getD 0 [])⟩, ⟨pyStripL (parts.getD 1 [])⟩,
        ⟨pyStripL (parts.getD 2 [])⟩)
    else ("", "", "")

/-- A validated calendar date (the Python `datetime.date` values the build
script constructs). -/
structure DateYMD where
  year : Nat
  month : Nat
  day : Nat
deriving DecidableEq, Repr

/-- Gregorian leap-year rule. -/
def isLeap (y : Nat) : Bool :=
  (y % 4 = 0 && y % 100 ≠ 0) || y % 400 = 0

/-- Days in a month of a given year. -/
def daysInMonth (y m : Nat) : Nat :=
  match m with
  | 1 => 31 | 2 => if isLeap y then 29 else 28 | 3 => 31 | 4 => 30
  | 5 => 31 | 6 => 30 | 7 => 31 | 8 => 31 | 9 => 30 | 10 => 31
  | 11 => 30 | 12 => 31 | _ => 0

/-- Validity condition of the Python `date(y, m, d)` constructor. -/
def validDate (y m d : Nat) : Bool :=
  1 ≤ y && y ≤ 9999 && 1 ≤ m && m ≤ 12 && 1 ≤ d && d ≤ daysInMonth y m

/-- Cumulative days before month `m` in year `y`. -/
def daysBeforeMonth (y m : Nat) : Nat :=
  let leapAdd := if isLeap y then 1 else 0
  match m with
  | 1 => 0 | 2 => 31 | 3 => 59 + leapAdd | 4 => 90 + leapAdd
  | 5 => 120 + leapAdd | 6 => 151 + leapAdd | 7 => 181 + leapAdd
  | 8 => 212 + leapAdd | 9 => 243 + leapAdd | 10 => 273 + leapAdd
  | 11 => 304 + leapAdd | 12 => 334 + leapAdd | _ => 0

/-- Proleptic Gregorian day number (same differences as Python `date`
subtraction). -/
def rataDie (dt : DateYMD) : Nat :=
  365 * (dt.year - 1) + (dt.year - 1) / 4 - (dt.year - 1) / 100 +
    (dt.year - 1) / 400 + daysBeforeMonth dt.year dt.month + dt.day

/-- Python `abs((a - b).days)` for two dates. -/
def dateAbsDiff (a b : DateYMD) : Nat :=
  ((rataDie a : Int) - (rataDie b : Int)).natAbs

/-- Mirrors `parse_date_ymd` of the build script: strip, cut at `T`, split
on dashes, require at least three numeric parts and a valid calendar date,
otherwise `none`. -/
def parse_date_ymd (s : String) : Option DateYMD :=
  let s := pyStrip s
  if s = "" then none
  else
    let parts := splitOnSep '-' (beforeT s.data)
    if parts.length < 3 then none
    else
      let y : String := ⟨pyStripL (parts.getD 0 [])⟩
      let m : String := ⟨pyStripL (parts.getD 1 [])⟩
      let d : String := ⟨pyStripL (parts.getD 2 [])⟩
      if pyIsDigit y && pyIsDigit m && pyIsDigit d then
        if validDate (strToNat y) (strToNat m) (strToNat d) then
          some ⟨strToNat y, strToNat m, strToNat d⟩
        else none
      else none

/-- Lexicographic code-point comparison on character lists (Python string
`<`). -/
def strLtL : List Char → List Char → Bool
  | [], [] => false
  | [], _ :: _ => true
  | _ :: _, [] => false
  | a :: as, b :: bs => if a < b then true else if b < a then false else strLtL as bs

/-- Python string comparison `a < b`. -/
def strLt (a b : String) : Bool :=
  strLtL a.data b.data

/-- Insert a string into a strictly sorted list, skipping duplicates. -/
def insertSD (x : String) : List String → List String
  | [] => [x]
  | y :: ys => if strLt x y then x :: y :: ys else if x = y then y :: ys else y :: insertSD x ys

/-- Python `sorted(set(l))` for a list of strings: the distinct elements in
increasing code-point order. -/
def sortedDedup (l : List String) : List String :=
  l.foldr insertSD []

/-- Mirrors the frozen dataclass `IdentityRow` of the build script. -/
structure IdentityRow where
  identity_key : String
  fgid : String
  player_name : String
  player_url : String
  yob : String
  mob : String
  dob : String
  org_abbrevs : String
  published_date_latest : String
  age_float : String
  dob_est_ymd : String
  yob_est : String
deriving DecidableEq, Repr

/-- Mirrors the frozen dataclass `SpineRow` of the build script. -/
structure SpineRow where
  mlbam_id : String
  name_first : String
  name_last : String
  yob : String
  mob : String
  dob : String
  org_abbrevs_seen : String
deriving DecidableEq, Repr

/-- Mirrors the frozen dataclass `AncillaryRow` of the build script. -/
structure AncillaryRow where
  mlbam_id : String
  first : String
  last : String
  yob : String
  mob : String
  dob : String
deriving DecidableEq, Repr

/-- Python `dict` get with default, over an association list whose keys are
unique by construction. -/
def dget {α : Type} (m : List (String × α)) (k : String) (dflt : α) : α :=
  match m with
  | [] => dflt
  | (k0, v) :: rest => if k0 = k then v else dget rest k dflt

/-- Python `k in dict`. -/
def dcontains {α : Type} (m : List (String × α)) (k : String) : Bool :=
  match m with
  | [] => false
  | (k0, _) :: rest => if k0 = k then true else dcontains rest k

/-- Python `dict[k] = v`: replace the binding in place, or append it. -/
def dinsert {α : Type} (m : List (String × α)) (k : String) (v : α) :
    List (String × α) :=
  match m with
  | [] => [(k, v)]
  | (k0, v0) :: rest =>
    if k0 = k then (k0, v) :: rest else (k0, v0) :: dinsert rest k v

/-- An inverted index: composite key (tuple of normalized strings, modelled
as a list) to the ordered list of ids inserted under it. -/
def Idx : Type := List (List String × List String)

/-- Mirrors `add_to_index` of the build script: empty ids are never
indexed; otherwise `index.setdefault(key, []).append(mlbam_id)`. -/
def add_to_index (index : Idx) (key : List String) (mlbam_id : String) : Idx :=
  if mlbam_id = "" then index
  else
    match index with
    | [] => [(key, [mlbam_id])]
    | (k, v) :: rest =>
      if k = key then (k, v ++ [mlbam_id]) :: rest
      else (k, v) :: add_to_index rest key mlbam_id

/-- Python `index.get(key, [])`. -/
def lookupIdx (index : Idx) (key : List String) : List String :=
  match index with
  | [] => []
  | (k, v) :: rest => if k = key then v else lookupIdx rest key

/-- Mirrors `unique_or_none` of the build script: `None` on an empty list,
else the sole element of `sorted(set(ids))` when that set is a singleton. -/
def unique_or_none (ids : List String) : Option String :=
  if ids = [] then none
  else
    match sortedDedup ids with
    | [u] => some u
    | _ => none

/-- Python truthiness filter for an optional string (`if u:`): strips a
`some ""` down to `none`. -/
def truthy (o : Option String) : Option String :=
  match o with
  | some u => if u = "" then none else some u
  | none => none

/-- The singleton check `hits = sorted(set(hits)); if len(hits) == 1:`
applied to an already sorted deduplicated list. -/
def pickUnique (hits : List String) : Option String :=
  match hits with
  | [h] => some h
  | _ => none

/-- Indexes and auxiliary per-id maps built by the main script before the
resolution loop (spine plus ancillary contributions). -/
structure Env where
  idx_first_last_dob : Idx
  idx_last_dob : Idx
  idx_full_name : Idx
  idx_last_yob : Idx
  idx_anc_first_last_dob : Idx
  idx_anc_last_dob : Idx
  idx_anc_full_name : Idx
  idx_anc_last_yob : Idx
  yob_by_id : List (String × String)
  dob_by_id : List (String × Option DateYMD)
  orgs_by_id : List (String × List String)
  first_initial_by_id : List (String × String)
  anc_nonempty : Bool

/-- The empty environment before any row is processed. -/
def emptyEnv : Env :=
  ⟨[], [], [], [], [], [], [], [], [], [], [], [], false⟩

/-- First character of a nonempty string, as a one-character string. -/
def firstCharStr (s : String) : String :=
  match s.data with
  | [] => ""
  | c :: _ => ⟨[c]⟩

/-- One spine row of the `--- Spine contribution ---` loop of the build
script (statement order preserved). -/
def spineStep (E : Env) (s : SpineRow) : Env :=
  let fn := norm_text s.name_first
  let ln := norm_text s.name_last
  let full := normalize_person_name_for_match (s.name_first ++ " " ++ s.name_last)
  let E :=
    if !(dcontains E.first_initial_by_id s.mlbam_id) && fn ≠ "" then
      { E with first_initial_by_id := dinsert E.first_initial_by_id s.mlbam_id (firstCharStr fn) }
    else E
  let y := pyStrip s.yob
  let m := pyStrip s.mob
  let d := pyStrip s.dob
  let E :=
    if fn ≠ "" && ln ≠ "" && y ≠ "" && m ≠ "" && d ≠ "" then
      { E with idx_first_last_dob := add_to_index E.idx_first_last_dob [fn, ln, y, m, d] s.mlbam_id }
    else E
  let E :=
    if ln ≠ "" && y ≠ "" && m ≠ "" && d ≠ "" then
      { E with idx_last_dob := add_to_index E.idx_last_dob [ln, y, m, d] s.mlbam_id }
    else E
  let E :=
    if ln ≠ "" && y ≠ "" then
      { E with idx_last_yob := add_to_index E.idx_last_yob [ln, y] s.mlbam_id }
    else E
  let E :=
    if full ≠ "" then
      { E with idx_full_name := add_to_index E.idx_full_name [full] s.mlbam_id }
    else E
  let E := { E with yob_by_id := dinsert E.yob_by_id s.mlbam_id (pyStrip s.yob) }
  let dobv := if y ≠ "" && m ≠ "" && d ≠ "" then parse_date_ymd (y ++ "-" ++ m ++ "-" ++ d) else none
  let E := { E with dob_by_id := dinsert E.dob_by_id s.mlbam_id dobv }
  let E :=
    if s.org_abbrevs_seen ≠ "" then
      { E with orgs_by_id := dinsert E.orgs_by_id s.mlbam_id (pipeTokens s.org_abbrevs_seen) }
    else E
  E

/-- One ancillary row of the `--- Ancillary contribution ---` loop of the
build script: same index shapes (the `idx_anc_*` family), year and date
maps filled only where missing, organizations never contributed. -/
def ancStep (E : Env) (a : AncillaryRow) : Env :=
  let fn := norm_text a.first
  let ln := norm_text a.last
  let full := normalize_person_name_for_match (a.first ++ " " ++ a.last)
  let E :=
    if !(dcontains E.first_initial_by_id a.mlbam_id) && fn ≠ "" then
      { E with first_initial_by_id := dinsert E.first_initial_by_id a.mlbam_id (firstCharStr fn) }
    else E
  let y := pyStrip a.yob
  let m := pyStrip a.mob
  let d := pyStrip a.dob
  let E :=
    if fn ≠ "" && ln ≠ "" && y ≠ "" && m ≠ "" && d ≠ "" then
      { E with idx_anc_first_last_dob := add_to_index E.idx_anc_first_last_dob [fn, ln, y, m, d] a.mlbam_id }
    else E
  let E :=
    if ln ≠ "" && y ≠ "" && m ≠ "" && d ≠ "" then
      { E with idx_anc_last_dob := add_to_index E.idx_anc_last_dob [ln, y, m, d] a.mlbam_id }
    else E
  let E :=
    if full ≠ "" then
      { E with idx_anc_full_name := add_to_index E.idx_anc_full_name [full] a.mlbam_id }
    else E
  let E :=
    if ln ≠ "" && y ≠ "" then
      { E with idx_anc_last_yob := add_to_index E.idx_anc_last_yob [ln, y] a.mlbam_id }
    else E
  let E :=
    if !(dcontains E.yob_by_id a.mlbam_id) || dget E.yob_by_id a.mlbam_id "" = "" then
      { E with yob_by_id := dinsert E.yob_by_id a.mlbam_id y }
    else E
  let dobv := if y ≠ "" && m ≠ "" && d ≠ "" then parse_date_ymd (y ++ "-" ++ m ++ "-" ++ d) else none
  let E :=
    if !(dcontains E.dob_by_id a.mlbam_id) ||
        (dget E.dob_by_id a.mlbam_id none).isNone then
      { E with dob_by_id := dinsert E.dob_by_id a.mlbam_id dobv }
    else E
  E

/-- Index construction of the build script: all spine rows, then all
ancillary rows, into the same environment; `anc_nonempty` records the
Python truthiness of the ancillary list (used by rule 4). -/
def buildEnv (spine : List SpineRow) (ancillary : List AncillaryRow) : Env :=
  { ancillary.foldl ancStep (spine.foldl spineStep emptyEnv) with
      anc_nonempty := !ancillary.isEmpty }

/-- The hit list of `tie_break_by_estimated_dob`: deduplicate and sort the
candidates, keep those whose known date of birth exists and lies within the
tolerance, then deduplicate and sort the hits. -/
def estDobHits (cand_ids : List String) (dob_est : DateYMD)
    (dob_by_id : List (String × Option DateYMD)) (tolerance_days : Nat) :
    List String :=
  sortedDedup
    ((sortedDedup cand_ids).filter (fun cid =>
      match dget dob_by_id cid none with
      | none => false
      | some dob_c => decide (dateAbsDiff dob_c dob_est ≤ tolerance_days)))

/-- Mirrors `tie_break_by_estimated_dob` of the build script: parse the
estimated date of birth (no decision when unparseable), keep candidates
with a known date within the tolerance, return the sole survivor. -/
def tie_break_by_estimated_dob (cand_ids : List String)
    (ident_dob_est_ymd : String) (dob_by_id : List (String × Option DateYMD))
    (tolerance_days : Nat) : Option String :=
  match parse_date_ymd ident_dob_est_ymd with
  | none => none
  | some dob_est => pickUnique (estDobHits cand_ids dob_est dob_by_id tolerance_days)

/-- The identity organization tokens
`[x for x in ident.org_abbrevs.split("|") if x.strip()]`. -/
def identOrgTokens (ident : IdentityRow) : List String :=
  pipeTokens ident.org_abbrevs

/-- The condition `has_dob = bool(y and m and d)` of the resolution loop. -/
def hasDob (ident : IdentityRow) : Bool :=
  pyStrip ident.yob ≠ "" && pyStrip ident.mob ≠ "" && pyStrip ident.dob ≠ ""

/-- Rule 1 candidates: index #1 lookups (spine then ancillary) under the
identity key built from `split_first_last_person` and the stripped date
parts. -/
def rule1Cands (ident : IdentityRow) (E : Env) : List String :=
  let fl := split_first_last_person ident.player_name
  let key := [fl.1, fl.2, pyStrip ident.yob, pyStrip ident.mob, pyStrip ident.dob]
  lookupIdx E.idx_first_last_dob key ++ lookupIdx E.idx_anc_first_last_dob key

/-- Rule 2 candidates: index #2 lookups (spine then ancillary) under the
last-name plus full-date key. -/
def rule2Cands (ident : IdentityRow) (E : Env) : List String :=
  let fl := split_first_last_person ident.player_name
  let key := [fl.2, pyStrip ident.yob, pyStrip ident.mob, pyStrip ident.dob]
  lookupIdx E.idx_last_dob key ++ lookupIdx E.idx_anc_last_dob key

/-- Rule 3 candidates: index #3 lookups (spine then ancillary) under the
full-name key. -/
def rule3Cands (ident : IdentityRow) (E : Env) : List String :=
  let key := [normalize_person_name_for_match ident.player_name]
  lookupIdx E.idx_full_name key ++ lookupIdx E.idx_anc_full_name key

/-- The `cand_unique = sorted(set(cand))` list of rule 3. -/
def r3CandUnique (ident : IdentityRow) (E : Env) : List String :=
  sortedDedup (rule3Cands ident E)

/-- Hits of tie-break A (organization overlap, spine-only provenance). -/
def tieAHits (ident : IdentityRow) (E : Env) : List String :=
  sortedDedup
    ((r3CandUnique ident E).filter (fun cid =>
      (identOrgTokens ident).any (fun o => (dget E.orgs_by_id cid []).contains o)))

/-- Hits of tie-break C (estimated year of birth within one year). -/
def tieCHits (ident : IdentityRow) (E : Env) : List String :=
  sortedDedup
    ((r3CandUnique ident E).filter (fun cid =>
      let yob_c := pyStrip (dget E.yob_by_id cid "")
      pyIsDigit yob_c &&
        decide
          (((strToNat yob_c : Int) - (strToNat ident.yob_est : Int)).natAbs ≤ 1)))

/-- Rule 4 estimated year derivation: the stripped 4-digit `yob_est` field
if well-formed, else the year of the parsed estimated date of birth, else
the stripped field unchanged. -/
def rule4Year (ident : IdentityRow) : String :=
  let ye0 := pyStrip ident.yob_est
  if pyIsDigit ye0 && ye0.length = 4 then ye0
  else
    match parse_date_ymd ident.dob_est_ymd with
    | some dd => natToString dd.year
    | none => ye0

/-- Rule 4 first-name component (build-script `split_first_last`). -/
def rule4First (ident : IdentityRow) : String :=
  (split_first_last ident.player_name).1

/-- Rule 4 last-name component (build-script `split_first_last`). -/
def rule4Last (ident : IdentityRow) : String :=
  (split_first_last ident.player_name).2

/-- Rule 4 first initial: first character of the rule-4 first name. -/
def rule4FirstInitial (ident : IdentityRow) : String :=
  firstCharStr (rule4First ident)

/-- Rule 4 candidates: index #4 lookup, plus the ancillary index only when
the ancillary list was nonempty. -/
def rule4Cands (ident : IdentityRow) (E : Env) : List String :=
  let key := [rule4Last ident, rule4Year ident]
  lookupIdx E.idx_last_yob key ++
    (if E.anc_nonempty then lookupIdx E.idx_anc_last_yob key else [])

/-- The `cand_unique = sorted(set(candidates))` list of rule 4. -/
def rule4CandUnique (ident : IdentityRow) (E : Env) : List String :=
  sortedDedup (rule4Cands ident E)

/-- Hits of rule 4 guard A: candidates with nonempty known organizations
intersecting the identity organizations. -/
def g1Hits (ident : IdentityRow) (E : Env) : List String :=
  sortedDedup
    ((rule4CandUnique ident E).filter (fun cid =>
      let orgs := dget E.orgs_by_id cid []
      !orgs.isEmpty && (identOrgTokens ident).any (fun o => orgs.contains o)))

/-- Hits of rule 4 guard B: candidates whose recorded first initial is
nonempty and equals the identity first initial. -/
def g2Hits (ident : IdentityRow) (E : Env) : List String :=
  sortedDedup
    ((rule4CandUnique ident E).filter (fun cid =>
      let fi := pyStrip (dget E.first_initial_by_id cid "")
      fi ≠ "" && fi = rule4FirstInitial ident))

/-- State after rule 1 of the resolution loop:
`(mlbam_id, match_method, match_status)`. -/
def stage1 (ident : IdentityRow) (E : Env) : String × String × String :=
  if hasDob ident then
    match truthy (unique_or_none (rule1Cands ident E)) with
    | some u => (u, "exact_name_dob", "matched_exact_name_dob")
    | none => ("", "", "")
  else ("", "", "")

/-- State after rule 2 (runs only when rule 1 left the id empty and the
identity has a complete date of birth). -/
def stage2 (ident : IdentityRow) (E : Env) : String × String × String :=
  if (stage1 ident E).1 = "" && hasDob ident then
    match truthy (unique_or_none (rule2Cands ident E)) with
    | some u => (u, "lastname_dob", "matched_lastname_dob")
    | none => stage1 ident E
  else stage1 ident E

/-- Tie-break A of rule 3 (organization overlap): the value of the local
`chosen` with the method and status strings it sets; runs only when the
identity has organization tokens and candidates exist. -/
def tieA (ident : IdentityRow) (E : Env) : Option String × String × String :=
  if !(identOrgTokens ident).isEmpty && !(r3CandUnique ident E).isEmpty then
    match pickUnique (tieAHits ident E) with
    | some h => (some h, "name_plus_org_unique", "matched_name_with_tiebreak")
    | none => (none, "", "")
  else (none, "", "")

/-- Tie-break B of rule 3 (estimated date-of-birth proximity), attempted
only while `chosen` is still `None`. -/
def tieB (ident : IdentityRow) (E : Env) : Option String × String × String :=
  if (tieA ident E).1.isNone && !(r3CandUnique ident E).isEmpty then
    match tie_break_by_estimated_dob (r3CandUnique ident E) ident.dob_est_ymd
        E.dob_by_id 45 with
    | some ch => (some ch, "name_plus_est_dob_unique", "matched_name_with_tiebreak")
    | none => tieA ident E
  else tieA ident E

/-- Tie-break C of rule 3 (estimated year of birth within one year),
attempted only while `chosen` is still `None` and the raw `yob_est` field
is a nonempty digit string. -/
def tieC (ident : IdentityRow) (E : Env) : Option String × String × String :=
  if (tieB ident E).1.isNone && !(r3CandUnique ident E).isEmpty &&
      ident.yob_est ≠ "" && pyIsDigit ident.yob_est then
    match pickUnique (tieCHits ident E) with
    | some h => (some h, "name_plus_est_yob_unique", "matched_name_with_tiebreak")
    | none => tieB ident E
  else tieB ident E

/-- State after rule 3 and its tie-break cascade (organization overlap,
estimated date of birth, estimated year of birth), mirroring the Python
control flow including string truthiness of the final `if chosen:`. -/
def stage3 (ident : IdentityRow) (E : Env) : String × String × String :=
  if (stage2 ident E).1 = "" then
    match truthy (unique_or_none (rule3Cands ident E)) with
    | some u => (u, "name_only_unique", "matched_name_only_unique")
    | none =>
      match (tieC ident E).1 with
      | some ch =>
        if ch = "" then ("", (tieC ident E).2.1, (tieC ident E).2.2)
        else (ch, (tieC ident E).2.1, (tieC ident E).2.2)
      | none => ("", (tieC ident E).2.1, (tieC ident E).2.2)
  else stage2 ident E

/-- Rule 4 guard A (organization overlap with nonempty known
organizations): the assignment to `mlbam_id` with its method and status
strings. -/
def guardA (ident : IdentityRow) (E : Env) : String × String × String :=
  if !(identOrgTokens ident).isEmpty && !(rule4CandUnique ident E).isEmpty then
    match pickUnique (g1Hits ident E) with
    | some h =>
      (h, "lastname_plus_yob_est_plus_org_unique",
        "matched_lastname_plus_yob_est_unique")
    | none => ("", "", "")
  else ("", "", "")

/-- Rule 4 guard B (first-initial agreement), attempted only while
`mlbam_id` is still falsy. -/
def guardB (ident : IdentityRow) (E : Env) : String × String × String :=
  if (guardA ident E).1 = "" then
    if rule4FirstInitial ident ≠ "" && !(rule4CandUnique ident E).isEmpty then
      match pickUnique (g2Hits ident E) with
      | some h =>
        (h, "lastname_plus_yob_est_plus_first_initial_unique",
          "matched_lastname_plus_yob_est_unique")
      | none => guardA ident E
    else guardA ident E
  else guardA ident E

/-- State after rule 4 (last name plus estimated year of birth, guarded by
organization overlap then first-initial agreement). -/
def stage4 (ident : IdentityRow) (E : Env) : String × String × String :=
  if (stage3 ident E).1 = "" then
    if pyIsDigit (rule4Year ident) then
      if rule4Last ident ≠ "" then guardB ident E
      else ("", "", "")
    else ("", "", "")
  else stage3 ident E

/-- The union of the `candidates_by_rule` values: rules 1 and 2 contribute
only when attempted, rule 3 whenever reached; rule 4 candidates are kept in
a separate variable in the source and therefore never enter this union. -/
def rules123Union (ident : IdentityRow) (E : Env) : List String :=
  (if hasDob ident then rule1Cands ident E else []) ++
    (if (stage1 ident E).1 = "" && hasDob ident then rule2Cands ident E else []) ++
    (if (stage2 ident E).1 = "" then rule3Cands ident E else [])

/-- Per-identity output of the resolution loop (the fields of the output
row that the resolution logic computes). -/
structure Outcome where
  mlbam_id : String
  match_method : String
  match_status : String
  candidate_mlbam_ids : List String
deriving DecidableEq, Repr

/-- The whole per-identity body of the resolution loop of the build script:
rules 1 to 4, then final classification over the deduplicated union of the
rule 1 to 3 candidates. -/
def resolve (ident : IdentityRow) (E : Env) : Outcome :=
  let s := stage4 ident E
  let acu := sortedDedup (rules123Union ident E)
  if s.1 ≠ "" then ⟨s.1, s.2.1, s.2.2, acu⟩
  else if 1 < acu.length then ⟨"", "none", "ambiguous_multiple_candidates", acu⟩
  else ⟨"", "none", "unmatched_no_candidate", acu⟩

/-- The unique-selection invariant of the data model: whichever rule or
tie-break produced a (truthy) chosen id, the deduplicated candidate set
examined at that assignment point is exactly the singleton of the chosen
id, identified by the method string the assignment wrote. -/
def uniqueSelection (ident : IdentityRow) (E : Env) : Prop :=
  ((resolve ident E).match_method = "exact_name_dob" ∧
    sortedDedup (rule1Cands ident E) = [(resolve ident E).mlbam_id]) ∨
  ((resolve ident E).match_method = "lastname_dob" ∧
    sortedDedup (rule2Cands ident E) = [(resolve ident E).mlbam_id]) ∨
  ((resolve ident E).match_method = "name_only_unique" ∧
    sortedDedup (rule3Cands ident E) = [(resolve ident E).mlbam_id]) ∨
  ((resolve ident E).match_method = "name_plus_org_unique" ∧
    tieAHits ident E = [(resolve ident E).mlbam_id]) ∨
  ((resolve ident E).match_method = "name_plus_est_dob_unique" ∧
    ∃ est, parse_date_ymd ident.dob_est_ymd = some est ∧
      estDobHits (r3CandUnique ident E) est E.dob_by_id 45 =
        [(resolve ident E).mlbam_id]) ∨
  ((resolve ident E).match_method = "name_plus_est_yob_unique" ∧
    tieCHits ident E = [(resolve ident E).mlbam_id]) ∨
  ((resolve ident E).match_method = "lastname_plus_yob_est_plus_org_unique" ∧
    g1Hits ident E = [(resolve ident E).mlbam_id]) ∨
  ((resolve ident E).match_method = "lastname_plus_yob_est_plus_first_initial_unique" ∧
    g2Hits ident E = [(resolve ident E).mlbam_id])

/-- Python `by_status[k] = by_status.get(k, 0) + 1`. -/
def bump (m : List (String × Nat)) (k : String) : List (String × Nat) :=
  match m with
  | [] => [(k, 1)]
  | (k0, v) :: rest => if k0 = k then (k0, v + 1) :: rest else (k0, v) :: bump rest k

/-- Total of all counts of the per-status map. -/
def sumVals (m : List (String × Nat)) : Nat :=
  (m.map (fun p => p.2)).sum

/-- The run counters of the build script: matched, ambiguous, unmatched and
the per-status breakdown. -/
structure RunStats where
  matched : Nat
  ambiguous : Nat
  unmatched : Nat
  by_status : List (String × Nat)
deriving DecidableEq, Repr

/-- All counters at zero. -/
def initStats : RunStats := ⟨0, 0, 0, []⟩

/-- Counter update for one identity, keyed exactly like the source: a
truthy chosen id counts as matched, otherwise more than one distinct
candidate counts as ambiguous, otherwise unmatched. -/
def stepStats (st : RunStats) (out : Outcome) : RunStats :=
  if out.mlbam_id ≠ "" then
    { st with matched := st.matched + 1, by_status := bump st.by_status out.match_status }
  else if 1 < out.candidate_mlbam_ids.length then
    { st with ambiguous := st.ambiguous + 1, by_status := bump st.by_status out.match_status }
  else
    { st with unmatched := st.unmatched + 1, by_status := bump st.by_status out.match_status }

/-- Counters after a full run over the identity list. -/
def runStats (idents : List IdentityRow) (E : Env) : RunStats :=
  idents.foldl (fun st i => stepStats st (resolve i E)) initStats

/-- A parsed tabular input: the header row and the value rows (the shape
`csv.DictReader` consumes). -/
structure Csv where
  header : List String
  rows : List (List String)
deriving DecidableEq, Repr

/-- One `DictReader` row as an association list over the header: missing
trailing values read as empty, extra values are dropped, and every value is
stripped as in `read_csv_dicts`. -/
def csvRowDict (header : List String) (vals : List String) :
    List (String × String) :=
  (header.zip (vals ++ List.replicate (header.length - vals.length) "")).map
    (fun p => (p.1, pyStrip p.2))

/-- Mirrors `read_csv_dicts` of the build script: an empty header is a
fatal error, otherwise each row becomes a stripped dictionary over the
header fields. -/
def read_csv_dicts (c : Csv) : Except String (List (List (String × String))) :=
  if c.header = [] then Except.error "empty CSV / missing header"
  else Except.ok (c.rows.map (csvRowDict c.header))

/-- Columns required of the identities input. -/
def identityRequired : List String :=
  ["identity_key", "fgid", "player_name", "player_url"]

/-- One identity row from its dictionary, mirroring the loop body of
`read_identities` (the `birth_date or dob_ymd` fallback chain, else the
split year/month/day columns). -/
def identityOfDict (row : List (String × String)) : IdentityRow :=
  let birth0 := dget row "birth_date" ""
  let birth1 := if birth0 = "" then dget row "dob_ymd" "" else birth0
  let birth_date := pyStrip birth1
  let ymd :=
    if birth_date ≠ "" then parse_ymd_from_iso birth_date
    else (pyStrip (dget row "yob" ""), pyStrip (dget row "mob" ""), pyStrip (dget row "dob" ""))
  { identity_key := pyStrip (dget row "identity_key" "")
    fgid := pyStrip (dget row "fgid" "")
    player_name := pyStrip (dget row "player_name" "")
    player_url := pyStrip (dget row "player_url" "")
    yob := ymd.1
    mob := ymd.2.1
    dob := ymd.2.2
    org_abbrevs := pyStrip (dget row "org_abbrevs" "")
    published_date_latest := pyStrip (dget row "published_date_latest" "")
    age_float := pyStrip (dget row "age_float" "")
    dob_est_ymd := pyStrip (dget row "dob_est_ymd" "")
    yob_est := pyStrip (dget row "yob_est" "") }

/-- Mirrors `read_identities`: zero parsed rows and missing required
columns are fatal errors. -/
def read_identities (c : Csv) : Except String (List IdentityRow) := do
  let rows ← read_csv_dicts c
  if rows = [] then Except.error "parsed zero rows"
  else if (identityRequired.filter (fun k => !c.header.contains k)) ≠ [] then
    Except.error "missing required columns"
  else Except.ok (rows.map identityOfDict)

/-- Column pick of `read_spine`: first accepted header spelling present. -/
def pickCol (keys : List String) (cands : List String) : Option String :=
  match cands with
  | [] => none
  | c :: rest => if keys.contains c then some c else pickCol keys rest

/-- One spine row from its dictionary given the detected columns,
mirroring the loop body of `read_spine`; rows with an empty id are
discarded by the caller. -/
def spineOfDict (colFirst colLast : String) (colBirth : Option String)
    (hasOrgs : Bool) (row : List (String × String)) : SpineRow :=
  let birth :=
    match colBirth with
    | some cb => pyStrip (dget row cb "")
    | none => ""
  let ymd :=
    if birth ≠ "" then parse_ymd_from_iso birth
    else (pyStrip (dget row "yob" ""), pyStrip (dget row "mob" ""), pyStrip (dget row "dob" ""))
  { mlbam_id := pyStrip (dget row "mlbam_id" "")
    name_first := pyStrip (dget row colFirst "")
    name_last := pyStrip (dget row colLast "")
    yob := ymd.1
    mob := ymd.2.1
    dob := ymd.2.2
    org_abbrevs_seen := if hasOrgs then pyStrip (dget row "org_abbrevs_seen" "") else "" }

/-- Mirrors `read_spine`: detect columns by accepted spellings, fail when
the id or name columns are absent, drop rows with empty ids, and fail when
zero rows or zero usable rows remain. -/
def read_spine (c : Csv) : Except String (List SpineRow) := do
  let rows ← read_csv_dicts c
  if rows = [] then Except.error "parsed zero rows"
  else
    let colMlbam := pickCol c.header ["mlbam_id"]
    let colFirst := pickCol c.header ["name_first", "first_name", "First", "first"]
    let colLast := pickCol c.header ["name_last", "last_name", "Last", "last"]
    match colMlbam, colFirst, colLast with
    | some _, some cf, some cl =>
      let colBirth := pickCol c.header ["birth_date", "DOB", "dob_ymd"]
      let hasOrgs := c.header.contains "org_abbrevs_seen"
      let out :=
        (rows.filter (fun row => pyStrip (dget row "mlbam_id" "") ≠ "")).map
          (spineOfDict cf cl colBirth hasOrgs)
      if out = [] then Except.error "parsed zero usable rows" else Except.ok out
    | _, _, _ => Except.error "missing required columns for mlbam and names"

/-- Columns required of the ancillary input. -/
def ancillaryRequired : List String :=
  ["MLBAM_ID", "First", "Last", "YOB", "MOB", "DOB"]

/-- One ancillary row from its dictionary (loop body of `read_ancillary`). -/
def ancillaryOfDict (row : List (String × String)) : AncillaryRow :=
  { mlbam_id := pyStrip (dget row "MLBAM_ID" "")
    first := pyStrip (dget row "First" "")
    last := pyStrip (dget row "Last" "")
    yob := pyStrip (dget row "YOB" "")
    mob := pyStrip (dget row "MOB" "")
    dob := pyStrip (dget row "DOB" "") }

/-- Mirrors `read_ancillary`: fixed required column set, rows with empty
ids discarded, zero rows or zero usable rows fatal. -/
def read_ancillary (c : Csv) : Except String (List AncillaryRow) := do
  let rows ← read_csv_dicts c
  if rows = [] then Except.error "parsed zero rows"
  else if (ancillaryRequired.filter (fun k => !c.header.contains k)) ≠ [] then
    Except.error "missing required columns"
  else
    let out :=
      (rows.filter (fun row => pyStrip (dget row "MLBAM_ID" "") ≠ "")).map
        ancillaryOfDict
    if out = [] then Except.error "parsed zero usable rows" else Except.ok out

/-- The input-loading phase of `main`, over an abstract file system where
`none` stands for a path that does not exist.  Opening a missing
identities or spine file raises (a fatal error), while a missing ancillary
path is skipped by the `ancillary_path.exists()` guard and contributes an
empty ancillary list. -/
def loadInputs (identFile spineFile ancFile : Option Csv) :
    Except String (List IdentityRow × List SpineRow × List AncillaryRow) := do
  let idents ←
    match identFile with
    | none => Except.error "identities file not found"
    | some c => read_identities c
  let spine ←
    match spineFile with
    | none => Except.error "spine file not found"
    | some c => read_spine c
  let anc ←
    match ancFile with
    | none => Except.ok []
    | some c => read_ancillary c
  Except.ok (idents, spine, anc)

/-- Success test on an `Except` result. -/
def exceptOk {ε α : Type} (e : Except ε α) : Bool :=
  match e with
  | Except.ok _ => true
  | Except.error _ => false

/-- The identity of the end-to-end scenario of claim C1: name `Jose Perez`,
birth date `2001-04-10` already split into parts as `read_identities`
does. -/
def joseIdent : IdentityRow :=
  ⟨"k1", "1", "Jose Perez", "", "2001", "04", "10", "", "", "", "", ""⟩

/-- The single spine record of the C1 scenario. -/
def joseSpine : SpineRow :=
  ⟨"700001", "Jose", "Perez", "2001", "04", "10", ""⟩

/-- Environment of the C1 scenario (one spine record, no ancillary). -/
def envJose : Env := buildEnv [joseSpine] []

/-- The identity of the C3 scenario: `C.J. Smith` with organization `BAL`
and no birth information. -/
def cjIdent : IdentityRow :=
  ⟨"k2", "2", "C.J. Smith", "", "", "", "", "BAL", "", "", "", ""⟩

/-- C3 spine candidates whose normalized full name is `cj smith` (raw
first name `CJ`), one per organization. -/
def envCJ : Env :=
  buildEnv
    [⟨"800001", "CJ", "Smith", "", "", "", "BAL"⟩,
      ⟨"800002", "CJ", "Smith", "", "", "", "NYY"⟩] []

/-- C3 spine candidates whose raw names are `C.J. Smith`, so their
normalized full name is `c j smith` like the identity key. -/
def envCJ2 : Env :=
  buildEnv
    [⟨"800001", "C.J.", "Smith", "", "", "", "BAL"⟩,
      ⟨"800002", "C.J.", "Smith", "", "", "", "NYY"⟩] []

/-- C2 counterexample identity: no birth date, estimated year 1999, a name
absent from the full-name index. -/
def r4Ident : IdentityRow :=
  ⟨"k3", "3", "John Smith", "", "", "", "", "", "", "", "", "1999"⟩

/-- C2 counterexample spine: two records sharing last name `Smith` and
year 1999 (rule 4 sees both) whose full names differ from the identity. -/
def envR4 : Env :=
  buildEnv
    [⟨"1", "Alice", "Smith", "1999", "", "", ""⟩,
      ⟨"2", "Bob", "Smith", "1999", "", "", ""⟩] []

/-- C6 witness identity: no birth date, no organizations, no estimates. -/
def ambIdent : IdentityRow :=
  ⟨"k6", "6", "Alex Johnson", "", "", "", "", "", "", "", "", ""⟩

/-- C6 witness spine: two records sharing the normalized full name. -/
def envAmb : Env :=
  buildEnv
    [⟨"900001", "Alex", "Johnson", "", "", "", ""⟩,
      ⟨"900002", "Alex", "Johnson", "", "", "", ""⟩] []

/-- C7 witness identity: estimated date of birth `2000-05-15`, no other
signals. -/
def estIdent : IdentityRow :=
  ⟨"k7", "7", "Sam Rivera", "", "", "", "", "", "", "", "2000-05-15", ""⟩

/-- C7 witness spine: same-named candidates born `2000-05-25` (10 days
from the estimate) and `2000-07-04` (50 days from the estimate). -/
def envEst : Env :=
  buildEnv
    [⟨"910001", "Sam", "Rivera", "2000", "05", "25", ""⟩,
      ⟨"910002", "Sam", "Rivera", "2000", "07", "04", ""⟩] []

/-- A well-formed identities input table. -/
def identCsv1 : Csv :=
  ⟨["identity_key", "fgid", "player_name", "player_url"],
    [["k1", "1", "Jose Perez", ""]]⟩

/-- A well-formed spine input table. -/
def spineCsv1 : Csv :=
  ⟨["mlbam_id", "name_first", "name_last"], [["700001", "Jose", "Perez"]]⟩

/-- The identity rows `read_identities` produces from `identCsv1`. -/
def identRows1 : List IdentityRow :=
  [⟨"k1", "1", "Jose Perez", "", "", "", "", "", "", "", "", ""⟩]

/-- The spine rows `read_spine` produces from `spineCsv1`. -/
def spineRows1 : List SpineRow :=
  [⟨"700001", "Jose", "Perez", "", "", "", ""⟩]

/-- Value of a successful result, or a default. -/
def exceptValueD {ε α : Type} (e : Except ε α) (dflt : α) : α :=
  match e with
  | Except.ok v => v
  | Except.error _ => dflt

/-- An identities input missing the required `fgid` column. -/
def identCsvNoFgid : Csv :=
  ⟨["identity_key", "player_name", "player_url"], [["k", "n", "u"]]⟩

/-- A spine input missing the required `mlbam_id` column. -/
def spineCsvNoId : Csv :=
  ⟨["name_first", "name_last"], [["Jose", "Perez"]]⟩

/-- An ancillary input missing the required `YOB`, `MOB` and `DOB`
columns. -/
def ancCsvNoCols : Csv :=
  ⟨["MLBAM_ID", "First", "Last"], [["1", "A", "B"]]⟩

theorem String.data_eq {a b : String} (h : a.data = b.data) : a = b := by
  cases a; cases b; exact congrArg String.mk h

theorem strLtL_trans :
    ∀ {a b c : List Char}, strLtL a b = true → strLtL b c = true →
      strLtL a c = true := by
  intro a
  induction a with
  | nil =>
    intro b c hab hbc
    cases b with
    | nil => simp [strLtL] at hab
    | cons y ys =>
      cases c with
      | nil => simp [strLtL] at hbc
      | cons z zs => simp [strLtL]
  | cons x xs ih =>
    intro b c hab hbc
    cases b with
    | nil => simp [strLtL] at hab
    | cons y ys =>
      cases c with
      | nil => simp [strLtL] at hbc
      | cons z zs =>
        simp only [strLtL] at hab hbc ⊢
        by_cases hxy : x < y
        · simp [hxy] at hab
          by_cases hyz : y < z
          · have hxz : x < z := Char.lt_trans hxy hyz
            simp [hxz]
          · by_cases hzy : z < y
            · simp [hyz, hzy] at hbc
            · have : y = z := Char.le_antisymm (Char.not_lt.mp hzy) (Char.not_lt.mp hyz)
              subst this
              simp [hxy]
        · by_cases hyx : y < x
          · simp [hxy, hyx] at hab
          · have hxy2 : x = y := Char.le_antisymm (Char.not_lt.mp hyx) (Char.not_lt.mp hxy)
            subst hxy2
            simp [hxy] at hab
            by_cases hyz : x < z
            · simp [hyz]
            · by_cases hzy : z < x
              · simp [hyz, hzy] at hbc
              · have : x = z := Char.le_antisymm (Char.not_lt.mp hzy) (Char.not_lt.mp hyz)
                subst this
                simp [hyz] at hbc ⊢
                exact ih hab hbc

theorem strLtL_total :
    ∀ {a b : List Char}, strLtL a b = false → strLtL b a = false → a = b := by
  intro a
  induction a with
  | nil =>
    intro b hab _
    cases b with
    | nil => rfl
    | cons y ys => simp [strLtL] at hab
  | cons x xs ih =>
    intro b hab hba
    cases b with
    | nil => simp [strLtL] at hba
    | cons y ys =>
      simp only [strLtL] at hab hba
      by_cases hxy : x < y
      · simp [hxy] at hab
      · by_cases hyx : y < x
        · simp [hxy, hyx] at hab
          simp [hyx] at hba
        · have hxy2 : x = y := Char.le_antisymm (Char.not_lt.mp hyx) (Char.not_lt.mp hxy)
          subst hxy2
          simp [hxy] at hab hba
          rw [ih hab hba]

theorem strLt_trans {a b c : String} (h1 : strLt a b = true)
    (h2 : strLt b c = true) : strLt a c = true :=
  strLtL_trans h1 h2

theorem strLt_total {a b : String} (h1 : strLt a b = false)
    (h2 : strLt b a = false) : a = b :=
  String.data_eq (strLtL_total h1 h2)

theorem mem_insertSD {a x : String} :
    ∀ {l : List String}, a ∈ insertSD x l ↔ a = x ∨ a ∈ l := by
  intro l
  induction l with
  | nil => simp [insertSD]
  | cons y ys ih =>
    by_cases h1 : strLt x y = true
    · simp [insertSD, h1]
    · by_cases h2 : x = y
      · subst h2
        simp [insertSD, h1]
      · simp [insertSD, h1, h2, ih]
        tauto

theorem mem_sortedDedup {a : String} :
    ∀ {l : List String}, a ∈ sortedDedup l ↔ a ∈ l := by
  intro l
  induction l with
  | nil => simp [sortedDedup]
  | cons x xs ih =>
    simp only [sortedDedup, List.foldr_cons, List.mem_cons]
    rw [show xs.foldr insertSD [] = sortedDedup xs from rfl] at *
    rw [mem_insertSD, ih]

theorem insertSD_pairwise {x : String} :
    ∀ {l : List String},
      l.Pairwise (fun p q => strLt p q = true) →
        (insertSD x l).Pairwise (fun p q => strLt p q = true) := by
  intro l
  induction l with
  | nil => intro _; simp [insertSD]
  | cons y ys ih =>
    intro hp
    rcases List.pairwise_cons.mp hp with ⟨hy, hys⟩
    simp only [insertSD]
    by_cases h1 : strLt x y
    · simp only [h1, if_true]
      refine List.pairwise_cons.mpr ⟨?_, hp⟩
      intro z hz
      rcases List.mem_cons.mp hz with hz | hz
      · subst hz; exact h1
      · exact strLt_trans h1 (hy z hz)
    · by_cases h2 : x = y
      · subst h2
        simp only [h1, if_false, if_pos rfl]
        exact hp
      · have hyx : strLt y x = true := by
          cases h3 : strLt y x
          · exact absurd (strLt_total (by simpa using h1) h3) h2
          · rfl
        simp only [h1, h2, if_false]
        refine List.pairwise_cons.mpr ⟨?_, ih hys⟩
        intro z hz
        rcases mem_insertSD.mp hz with hz | hz
        · subst hz; exact hyx
        · exact hy z hz

theorem sortedDedup_pairwise :
    ∀ (l : List String),
      (sortedDedup l).Pairwise (fun p q => strLt p q = true) := by
  intro l
  induction l with
  | nil => simp [sortedDedup]
  | cons x xs ih => exact insertSD_pairwise ih

theorem sortedDedup_of_pairwise :
    ∀ {l : List String},
      l.Pairwise (fun p q => strLt p q = true) → sortedDedup l = l := by
  intro l
  induction l with
  | nil => intro _; rfl
  | cons x xs ih =>
    intro hp
    rcases List.pairwise_cons.mp hp with ⟨hx, hxs⟩
    have : sortedDedup (x :: xs) = insertSD x (sortedDedup xs) := rfl
    rw [this, ih hxs]
    cases xs with
    | nil => rfl
    | cons y ys => simp [insertSD, hx y (List.mem_cons_self y ys)]

theorem sortedDedup_idem (l : List String) :
    sortedDedup (sortedDedup l) = sortedDedup l :=
  sortedDedup_of_pairwise (sortedDedup_pairwise l)

theorem sortedDedup_nil_iff {l : List String} :
    sortedDedup l = [] ↔ l = [] := by
  constructor
  · intro h
    cases l with
    | nil => rfl
    | cons x xs =>
      have : x ∈ sortedDedup (x :: xs) := mem_sortedDedup.mpr (List.mem_cons_self x xs)
      rw [h] at this
      exact absurd this (List.not_mem_nil x)
  · intro h; subst h; rfl

theorem unique_or_none_eq_some {l : List String} {u : String}
    (h : unique_or_none l = some u) : sortedDedup l = [u] := by
  unfold unique_or_none at h
  by_cases hl : l = []
  · simp [hl] at h
  · simp only [hl, if_false] at h
    rcases hsd : sortedDedup l with _ | ⟨a, _ | ⟨b, rest⟩⟩
    · rw [hsd] at h; simp at h
    · rw [hsd] at h
      simp at h
      subst h; rfl
    · rw [hsd] at h; simp at h

theorem pickUnique_eq_some {h : List String} {x : String}
    (hx : pickUnique h = some x) : h = [x] := by
  cases h with
  | nil => simp [pickUnique] at hx
  | cons a rest =>
    cases rest with
    | nil => simp [pickUnique] at hx; subst hx; rfl
    | cons b r2 => simp [pickUnique] at hx

theorem truthy_eq_some {o : Option String} {u : String}
    (h : truthy o = some u) : o = some u ∧ u ≠ "" := by
  cases o with
  | none => simp [truthy] at h
  | some v =>
    by_cases hv : v = ""
    · simp [truthy, hv] at h
    · simp [truthy, hv] at h
      subst h; exact ⟨rfl, hv⟩

theorem sumVals_bump (k : String) :
    ∀ (m : List (String × Nat)), sumVals (bump m k) = sumVals m + 1 := by
  intro m
  induction m with
  | nil => simp [bump, sumVals]
  | cons p rest ih =>
    rcases p with ⟨k0, v⟩
    by_cases h : k0 = k
    · simp [bump, h, sumVals]
      omega
    · simp only [bump, h, if_false, sumVals, List.map_cons, List.sum_cons]
      have := ih
      simp only [sumVals] at this
      omega

theorem stepStats_totals (st : RunStats) (out : Outcome) :
    (stepStats st out).matched + (stepStats st out).ambiguous +
        (stepStats st out).unmatched =
      st.matched + st.ambiguous + st.unmatched + 1 ∧
    sumVals (stepStats st out).by_status = sumVals st.by_status + 1 := by
  unfold stepStats
  by_cases h1 : out.mlbam_id ≠ ""
  · simp [h1, sumVals_bump]
    omega
  · by_cases h2 : 1 < out.candidate_mlbam_ids.length
    · simp [h1, h2, sumVals_bump]
      omega
    · simp [h1, h2, sumVals_bump]
      omega

theorem runStats_fold (E : Env) :
    ∀ (idents : List IdentityRow) (st : RunStats),
      ((idents.foldl (fun st i => stepStats st (resolve i E)) st).matched +
          (idents.foldl (fun st i => stepStats st (resolve i E)) st).ambiguous +
          (idents.foldl (fun st i => stepStats st (resolve i E)) st).unmatched =
        st.matched + st.ambiguous + st.unmatched + idents.length) ∧
      (sumVals (idents.foldl (fun st i => stepStats st (resolve i E)) st).by_status =
        sumVals st.by_status + idents.length) := by
  intro idents
  induction idents with
  | nil => intro st; simp
  | cons i rest ih =>
    intro st
    have hstep := stepStats_totals st (resolve i E)
    have hrest := ih (stepStats st (resolve i E))
    simp only [List.foldl_cons, List.length_cons]
    constructor
    · rw [hrest.1]
      omega
    · rw [hrest.2]
      omega

/-- Claim C10: every identity increments exactly one of the matched,
ambiguous and unmatched counters and exactly one per-status bucket, so
after a full run `matched + ambiguous + unmatched` equals the number of
identity records and the per-status breakdown sums to the same total,
regardless of which rules fired. -/
theorem c10_counter_partition (idents : List IdentityRow) (E : Env) :
    (runStats idents E).matched + (runStats idents E).ambiguous +
        (runStats idents E).unmatched = idents.length ∧
    sumVals (runStats idents E).by_status = idents.length := by
  have h := runStats_fold E idents initStats
  unfold runStats
  constructor
  · rw [h.1]; simp [initStats]
  · rw [h.2]; simp [initStats, sumVals]

/-- Claim C1: the spec expects the end-to-end scenario (identity
`Jose Perez`, born 2001-04-10, against a spine with exactly one matching
record with id 700001) to resolve through rule 1 with
`match_status = matched_exact_name_dob`.  The code returns the right id
but through rule 3 (`matched_name_only_unique`): the spine-side key
normalizer `norm_text` is built on `norm_space` (the import binds
`norm_space`, not `text.norm_text`, as `_norm_text_base`), so the spine
key keeps the capital letters of `Jose Perez` while the identity-side key
from `split_first_last_person` is casefolded, and the rule 1 and rule 2
lookups miss. -/
theorem c1_exact_name_dob_scenario :
    parse_ymd_from_iso "2001-04-10" = ("2001", "04", "10") ∧
    (resolve joseIdent envJose).mlbam_id = "700001" ∧
    (resolve joseIdent envJose).match_status = "matched_name_only_unique" ∧
    (resolve joseIdent envJose).match_status ≠ "matched_exact_name_dob" := by
  decide

/-- Claim C4: the spec says the name normalization feeding the keys of
indexes #1, #2 and #4 is case-insensitive with casefold semantics.  The
build-script `norm_text` does not fold case at all, so the case-variant
names `Jose` and `jose` produce different keys, while the identity-side
first name of the same record is casefolded to `jose`. -/
theorem c4_norm_text_case_sensitive :
    norm_text "Jose" = "Jose" ∧ norm_text "jose" = "jose" ∧
    norm_text "Jose" ≠ norm_text "jose" ∧
    (split_first_last_person "Jose Perez").1 = "jose" := by
  decide

/-- Claim C2 counterexample: an identity with no birth date, a name absent
from the full-name index, and estimated year 1999 reaches rule 4, which
sees the two distinct candidates 1 and 2; the claim then demands status
`ambiguous_multiple_candidates`, but the code classifies over the
rule 1 to 3 union only (rule 4 candidates are kept in a separate variable),
which is empty here, so the status is `unmatched_no_candidate` and the
candidate output field is empty. -/
theorem c2_rule4_excluded_counterexample :
    rule4CandUnique r4Ident envR4 = ["1", "2"] ∧
    (resolve r4Ident envR4).mlbam_id = "" ∧
    (resolve r4Ident envR4).match_status = "unmatched_no_candidate" ∧
    (resolve r4Ident envR4).candidate_mlbam_ids = [] := by
  decide

/-- Claim C3 counterexample: `normalize_person_name_for_match`, the
full-name normalizer actually used for the index #3 lookup, sends
`C.J. Smith` to `c j smith`, not to `cj smith` (the leading-initial
canonicalization lives only in `text.norm_text`, which the resolution
engine never calls).  Against two spine candidates whose normalized full
name is `cj smith` the lookup therefore misses and the identity ends
unmatched instead of resolving to the BAL candidate. -/
theorem c3_leading_initials_counterexample :
    normalize_person_name_for_match "C.J. Smith" = "c j smith" ∧
    normalize_person_name_for_match "C.J. Smith" ≠ "cj smith" ∧
    lookupIdx envCJ.idx_full_name ["cj smith"] = ["800001", "800002"] ∧
    (resolve cjIdent envCJ).mlbam_id = "" ∧
    (resolve cjIdent envCJ).match_status = "unmatched_no_candidate" := by
  decide

/-- Claim C3 amended: the full-name normalizer keeps the two leading
initials as separate tokens (`C.J. Smith` becomes `c j smith`), so the
organization tie-break scenario works when the spine candidates normalize
to the same `c j smith` key (raw names `C.J. Smith`): the identity then
resolves to the BAL candidate with method `name_plus_org_unique`. -/
theorem c3_org_tiebreak_amended :
    normalize_person_name_for_match "C.J. Smith" = "c j smith" ∧
    (resolve cjIdent envCJ2).mlbam_id = "800001" ∧
    (resolve cjIdent envCJ2).match_method = "name_plus_org_unique" ∧
    (resolve cjIdent envCJ2).match_status = "matched_name_with_tiebreak" := by
  decide

/-- Claim C9 counterexample: with well-formed identities and spine inputs
and a nonexistent ancillary path, the driver loads successfully (the
`ancillary_path.exists()` guard silently skips the ancillary input), so a
missing ancillary file does not make the run exit with an error. -/
theorem c9_missing_ancillary_counterexample :
    exceptOk (loadInputs (some identCsv1) (some spineCsv1) none) = true ∧
    exceptValueD (loadInputs (some identCsv1) (some spineCsv1) none) ([], [], []) =
      (identRows1, spineRows1, []) := by
  decide

theorem except_bind_error {ε α β : Type} (e : ε) (f : α → Except ε β) :
    (Except.error e : Except ε α) >>= f = Except.error e := rfl

theorem except_bind_ok {ε α β : Type} (a : α) (f : α → Except ε β) :
    (Except.ok a : Except ε α) >>= f = f a := rfl

theorem exceptOk_error {ε α : Type} (e : ε) :
    exceptOk (Except.error e : Except ε α) = false := rfl

theorem exceptOk_ok {ε α : Type} (a : α) :
    exceptOk (Except.ok a : Except ε α) = true := rfl

theorem read_identities_err_of_missing_col {c : Csv} {k : String}
    (hk : k ∈ identityRequired) (h : c.header.contains k = false) :
    exceptOk (read_identities c) = false := by
  have hnm : k ∉ c.header := by simpa using h
  have hex : ∃ x ∈ identityRequired, x ∉ c.header := ⟨k, hk, hnm⟩
  unfold read_identities read_csv_dicts
  by_cases hh : c.header = []
  · simp [hh, except_bind_error, exceptOk_error]
  · by_cases hr : c.rows.map (csvRowDict c.header) = []
    · simp [hh, hr, except_bind_ok, exceptOk_error]
    · simp [hh, hr, hex, except_bind_ok, exceptOk_error]

theorem read_identities_err_of_zero_rows (h : List String) :
    exceptOk (read_identities (Csv.mk h [])) = false := by
  unfold read_identities read_csv_dicts
  by_cases hh : h = []
  · simp [hh, except_bind_error, exceptOk_error]
  · simp [hh, except_bind_ok, exceptOk_error]

theorem read_spine_err_of_missing_col {c : Csv}
    (h : pickCol c.header ["mlbam_id"] = none ∨
      pickCol c.header ["name_first", "first_name", "First", "first"] = none ∨
      pickCol c.header ["name_last", "last_name", "Last", "last"] = none) :
    exceptOk (read_spine c) = false := by
  unfold read_spine read_csv_dicts
  by_cases hh : c.header = []
  · simp [hh, except_bind_error, exceptOk_error]
  · by_cases hr : c.rows.map (csvRowDict c.header) = []
    · simp [hh, hr, except_bind_ok, exceptOk_error]
    · simp only [hh, if_false, except_bind_ok]
      cases hm : pickCol c.header ["mlbam_id"] <;>
        cases hf : pickCol c.header ["name_first", "first_name", "First", "first"] <;>
          cases hl : pickCol c.header ["name_last", "last_name", "Last", "last"] <;>
            simp_all [exceptOk]

theorem read_spine_err_of_zero_rows (h : List String) :
    exceptOk (read_spine (Csv.mk h [])) = false := by
  unfold read_spine read_csv_dicts
  by_cases hh : h = []
  · simp [hh, except_bind_error, exceptOk_error]
  · simp [hh, except_bind_ok, exceptOk_error]

theorem read_ancillary_err_of_missing_col {c : Csv} {k : String}
    (hk : k ∈ ancillaryRequired) (h : c.header.contains k = false) :
    exceptOk (read_ancillary c) = false := by
  have hnm : k ∉ c.header := by simpa using h
  have hex : ∃ x ∈ ancillaryRequired, x ∉ c.header := ⟨k, hk, hnm⟩
  unfold read_ancillary read_csv_dicts
  by_cases hh : c.header = []
  · simp [hh, except_bind_error, exceptOk_error]
  · by_cases hr : c.rows.map (csvRowDict c.header) = []
    · simp [hh, hr, except_bind_ok, exceptOk_error]
    · simp [hh, hr, hex, except_bind_ok, exceptOk_error]

theorem read_ancillary_err_of_zero_rows (h : List String) :
    exceptOk (read_ancillary (Csv.mk h [])) = false := by
  unfold read_ancillary read_csv_dicts
  by_cases hh : h = []
  · simp [hh, except_bind_error, exceptOk_error]
  · simp [hh, except_bind_ok, exceptOk_error]

theorem loadInputs_err_of_ident_err {c : Csv} {sf af : Option Csv}
    (h : exceptOk (read_identities c) = false) :
    exceptOk (loadInputs (some c) sf af) = false := by
  unfold loadInputs
  cases hI : read_identities c with
  | ok v => rw [hI] at h; simp [exceptOk] at h
  | error e => simp [hI, except_bind_error, exceptOk_error]

theorem loadInputs_err_of_spine_err {c : Csv}
    (h : exceptOk (read_spine c) = false) (idf af : Option Csv) :
    exceptOk (loadInputs idf (some c) af) = false := by
  cases idf with
  | none => rfl
  | some ic =>
    unfold loadInputs
    cases hI : read_identities ic with
    | error e => simp [hI, except_bind_error, exceptOk_error]
    | ok ri =>
      cases hS : read_spine c with
      | ok rs => rw [hS] at h; simp [exceptOk] at h
      | error e =>
        simp [hI, hS, except_bind_ok, except_bind_error, exceptOk_error]

theorem loadInputs_err_of_anc_err {c : Csv}
    (h : exceptOk (read_ancillary c) = false) (idf sf : Option Csv) :
    exceptOk (loadInputs idf sf (some c)) = false := by
  cases idf with
  | none => rfl
  | some ic =>
    unfold loadInputs
    cases hI : read_identities ic with
    | error e => simp [hI, except_bind_error, exceptOk_error]
    | ok ri =>
      cases sf with
      | none => simp [hI, except_bind_ok, except_bind_error, exceptOk_error]
      | some sc =>
        cases hS : read_spine sc with
        | error e =>
          simp [hI, hS, except_bind_ok, except_bind_error, exceptOk_error]
        | ok rs =>
          cases hA : read_ancillary c with
          | ok ra => rw [hA] at h; simp [exceptOk] at h
          | error e =>
            simp [hI, hS, hA, except_bind_ok, except_bind_error, exceptOk_error]

/-- Claim C9 amended: the driver exits with an error whenever the
identities or the spine file is not found, whenever a required column is
missing from the identities, spine or (present) ancillary input, and
whenever any of the three inputs parses to zero rows; a nonexistent
ancillary path is skipped silently and the run proceeds with an empty
ancillary list. -/
theorem c9_error_handling_amended :
    (∀ (sf af : Option Csv), exceptOk (loadInputs none sf af) = false) ∧
    (∀ (idf af : Option Csv), exceptOk (loadInputs idf none af) = false) ∧
    (∀ (c : Csv) (k : String) (sf af : Option Csv), k ∈ identityRequired →
      c.header.contains k = false →
      exceptOk (loadInputs (some c) sf af) = false) ∧
    (∀ (h : List String) (sf af : Option Csv),
      exceptOk (loadInputs (some (Csv.mk h [])) sf af) = false) ∧
    (∀ (c : Csv) (idf af : Option Csv),
      (pickCol c.header ["mlbam_id"] = none ∨
        pickCol c.header ["name_first", "first_name", "First", "first"] = none ∨
        pickCol c.header ["name_last", "last_name", "Last", "last"] = none) →
      exceptOk (loadInputs idf (some c) af) = false) ∧
    (∀ (h : List String) (idf af : Option Csv),
      exceptOk (loadInputs idf (some (Csv.mk h [])) af) = false) ∧
    (∀ (c : Csv) (k : String) (idf sf : Option Csv), k ∈ ancillaryRequired →
      c.header.contains k = false →
      exceptOk (loadInputs idf sf (some c)) = false) ∧
    (∀ (h : List String) (idf sf : Option Csv),
      exceptOk (loadInputs idf sf (some (Csv.mk h []))) = false) ∧
    (∀ (ic sc : Csv) (ri : List IdentityRow) (rs : List SpineRow),
      read_identities ic = Except.ok ri → read_spine sc = Except.ok rs →
      loadInputs (some ic) (some sc) none = Except.ok (ri, rs, [])) := by
  refine ⟨?_, ?_, ?_, ?_, ?_, ?_, ?_, ?_, ?_⟩
  · intro sf af; rfl
  · intro idf af
    cases idf with
    | none => rfl
    | some c =>
      unfold loadInputs
      cases hI : read_identities c with
      | ok v => simp [hI, except_bind_ok, except_bind_error, exceptOk_error]
      | error e => simp [hI, except_bind_error, exceptOk_error]
  · intro c k sf af hk h
    exact loadInputs_err_of_ident_err (read_identities_err_of_missing_col hk h)
  · intro h sf af
    exact loadInputs_err_of_ident_err (read_identities_err_of_zero_rows h)
  · intro c idf af hcol
    exact loadInputs_err_of_spine_err (read_spine_err_of_missing_col hcol) idf af
  · intro h idf af
    exact loadInputs_err_of_spine_err (read_spine_err_of_zero_rows h) idf af
  · intro c k idf sf hk h
    exact loadInputs_err_of_anc_err (read_ancillary_err_of_missing_col hk h) idf sf
  · intro h idf sf
    exact loadInputs_err_of_anc_err (read_ancillary_err_of_zero_rows h) idf sf
  · intro ic sc ri rs h1 h2
    unfold loadInputs
    simp [h1, h2, except_bind_ok]

/-- Claim C9 witness: the amended statement applied to concrete inputs: an
identities file missing `fgid`, a spine file missing `mlbam_id` and an
ancillary file missing `YOB` each abort the load, while a valid identities
plus spine pair with a nonexistent ancillary path loads successfully. -/
theorem c9_error_handling_amended_witness :
    exceptOk (loadInputs (some identCsvNoFgid) (some spineCsv1) none) = false ∧
    exceptOk (loadInputs (some identCsv1) (some spineCsvNoId) none) = false ∧
    exceptOk (loadInputs (some identCsv1) (some spineCsv1) (some ancCsvNoCols)) = false ∧
    loadInputs (some identCsv1) (some spineCsv1) none =
      Except.ok (identRows1, spineRows1, []) :=
  ⟨c9_error_handling_amended.2.2.1 identCsvNoFgid "fgid" (some spineCsv1) none
      (by decide) (by decide),
    c9_error_handling_amended.2.2.2.2.1 spineCsvNoId (some identCsv1) none
      (Or.inl (by decide)),
    c9_error_handling_amended.2.2.2.2.2.2.1 ancCsvNoCols "YOB" (some identCsv1)
      (some spineCsv1) (by decide) (by decide),
    c9_error_handling_amended.2.2.2.2.2.2.2.2 identCsv1 spineCsv1 identRows1
      spineRows1 rfl rfl⟩

theorem pyStrip_empty : pyStrip "" = "" := rfl

theorem pipeTokens_empty : pipeTokens "" = [] := rfl

theorem pyIsDigit_empty : pyIsDigit "" = false := rfl

theorem hasDob_false_of_empty {ident : IdentityRow} (hy : ident.yob = "")
    (hm : ident.mob = "") (hd : ident.dob = "") : hasDob ident = false := by
  simp [hasDob, hy, hm, hd, pyStrip_empty]

theorem stage1_empty_of_no_dob {ident : IdentityRow} {E : Env}
    (h : hasDob ident = false) : stage1 ident E = ("", "", "") := by
  simp [stage1, h]

theorem stage2_empty_of_no_dob {ident : IdentityRow} {E : Env}
    (h : hasDob ident = false) : stage2 ident E = ("", "", "") := by
  simp [stage2, h, stage1_empty_of_no_dob h]

theorem unique_or_none_of_two {l : List String} {a b : String}
    (h : sortedDedup l = [a, b]) : unique_or_none l = none := by
  have hne : l ≠ [] := by
    intro h0
    rw [h0] at h
    simp [sortedDedup] at h
  simp [unique_or_none, hne, h]

/-- Claim C6: an identity with no birth date, no organization
abbreviations, no parseable estimated date of birth and no estimated year
of birth, whose full-name lookup (index #3, spine plus ancillary) yields
exactly two distinct candidate ids, is classified
`ambiguous_multiple_candidates` with an empty chosen id — never an
arbitrary pick of one of the two candidates. -/
theorem c6_ambiguous_two_candidates (ident : IdentityRow) (E : Env)
    (a b : String) (hy : ident.yob = "") (hm : ident.mob = "")
    (hd : ident.dob = "") (horg : ident.org_abbrevs = "")
    (hest : parse_date_ymd ident.dob_est_ymd = none)
    (hyob : ident.yob_est = "")
    (hcand : sortedDedup (rule3Cands ident E) = [a, b]) :
    (resolve ident E).mlbam_id = "" ∧
    (resolve ident E).match_status = "ambiguous_multiple_candidates" := by
  have hnd : hasDob ident = false := hasDob_false_of_empty hy hm hd
  have h1 : stage1 ident E = ("", "", "") := stage1_empty_of_no_dob hnd
  have h2 : stage2 ident E = ("", "", "") := stage2_empty_of_no_dob hnd
  have huon : unique_or_none (rule3Cands ident E) = none :=
    unique_or_none_of_two hcand
  have horgTok : identOrgTokens ident = [] := by
    simp [identOrgTokens, horg, pipeTokens_empty]
  have htb : tie_break_by_estimated_dob (r3CandUnique ident E)
      ident.dob_est_ymd E.dob_by_id 45 = none := by
    simp [tie_break_by_estimated_dob, hest]
  have hta : tieA ident E = (none, "", "") := by
    simp [tieA, horgTok]
  have htbv : tieB ident E = (none, "", "") := by
    simp [tieB, hta, htb]
  have htcv : tieC ident E = (none, "", "") := by
    simp [tieC, htbv, hyob]
  have h3 : stage3 ident E = ("", "", "") := by
    simp [stage3, h2, huon, truthy, htcv]
  have hye : rule4Year ident = "" := by
    simp [rule4Year, hyob, pyStrip_empty, pyIsDigit_empty, hest]
  have h4 : stage4 ident E = ("", "", "") := by
    simp [stage4, h3, hye, pyIsDigit_empty]
  have hunion : rules123Union ident E = rule3Cands ident E := by
    simp [rules123Union, hnd, h2]
  simp [resolve, h4, hunion, hcand]

/-- Claim C6 witness: the theorem applied to the concrete two-record
environment `envAmb` and the signal-free identity `ambIdent`. -/
theorem c6_ambiguous_two_candidates_witness :
    (resolve ambIdent envAmb).mlbam_id = "" ∧
    (resolve ambIdent envAmb).match_status = "ambiguous_multiple_candidates" :=
  c6_ambiguous_two_candidates ambIdent envAmb "900001" "900002" rfl rfl rfl rfl
    rfl rfl (by decide)

/-- Claim C7: with tolerance 45 days, an identity whose estimated date of
birth parses, resolved against exactly two name-collision candidates whose
known dates of birth are 10 and 50 days from the estimate, picks the
10-day candidate with method `name_plus_est_dob_unique`; moreover the
tie-break never chooses a candidate without a known date of birth
(candidates with no known date are skipped, not counted as survivors). -/
theorem c7_estimated_dob_tiebreak (ident : IdentityRow) (E : Env)
    (a b : String) (est da db : DateYMD) (hy : ident.yob = "")
    (hm : ident.mob = "") (hd : ident.dob = "")
    (horg : ident.org_abbrevs = "")
    (hparse : parse_date_ymd ident.dob_est_ymd = some est)
    (hcand : sortedDedup (rule3Cands ident E) = [a, b]) (hna : a ≠ "")
    (hda : dget E.dob_by_id a none = some da)
    (hdb : dget E.dob_by_id b none = some db)
    (hdista : dateAbsDiff da est = 10) (hdistb : dateAbsDiff db est = 50) :
    ((resolve ident E).mlbam_id = a ∧
      (resolve ident E).match_method = "name_plus_est_dob_unique" ∧
      (resolve ident E).match_status = "matched_name_with_tiebreak") ∧
    (∀ (ids : List String) (sEst : String)
        (m : List (String × Option DateYMD)) (tol : Nat) (c : String),
      tie_break_by_estimated_dob ids sEst m tol = some c →
      dget m c none ≠ none) := by
  constructor
  · have hnd : hasDob ident = false := hasDob_false_of_empty hy hm hd
    have h2 : stage2 ident E = ("", "", "") := stage2_empty_of_no_dob hnd
    have huon : unique_or_none (rule3Cands ident E) = none :=
      unique_or_none_of_two hcand
    have horgTok : identOrgTokens ident = [] := by
      simp [identOrgTokens, horg, pipeTokens_empty]
    have hcu : r3CandUnique ident E = [a, b] := hcand
    have hsd2 : sortedDedup [a, b] = [a, b] := by
      rw [← hcand]
      exact sortedDedup_idem _
    have hhits : estDobHits [a, b] est E.dob_by_id 45 = [a] := by
      unfold estDobHits
      rw [hsd2]
      simp [hda, hdb, hdista, hdistb, sortedDedup, insertSD]
    have htb : tie_break_by_estimated_dob [a, b]
        ident.dob_est_ymd E.dob_by_id 45 = some a := by
      simp [tie_break_by_estimated_dob, hparse, hhits, pickUnique]
    have hta : tieA ident E = (none, "", "") := by
      simp [tieA, horgTok]
    have htbv : tieB ident E =
        (some a, "name_plus_est_dob_unique", "matched_name_with_tiebreak") := by
      simp [tieB, hta, hcu, htb]
    have htcv : tieC ident E =
        (some a, "name_plus_est_dob_unique", "matched_name_with_tiebreak") := by
      simp [tieC, htbv]
    have h3 : stage3 ident E =
        (a, "name_plus_est_dob_unique", "matched_name_with_tiebreak") := by
      simp [stage3, h2, huon, truthy, htcv, hna]
    have h4 : stage4 ident E =
        (a, "name_plus_est_dob_unique", "matched_name_with_tiebreak") := by
      simp [stage4, h3, hna]
    simp [resolve, h4, hna]
  · intro ids sEst m tol c htb0
    unfold tie_break_by_estimated_dob at htb0
    cases hp : parse_date_ymd sEst with
    | none => rw [hp] at htb0; simp at htb0
    | some de =>
      rw [hp] at htb0
      have hl : estDobHits ids de m tol = [c] := pickUnique_eq_some htb0
      have hcmem : c ∈ estDobHits ids de m tol := by
        rw [hl]
        exact List.mem_cons_self c []
      unfold estDobHits at hcmem
      have hcmem2 := mem_sortedDedup.mp hcmem
      rcases List.mem_filter.mp hcmem2 with ⟨_, hpred⟩
      intro hnone
      rw [hnone] at hpred
      simp at hpred

/-- Claim C7 witness: the theorem applied to the concrete environment
`envEst` (candidates born 2000-05-25 and 2000-07-04) and the identity
`estIdent` whose estimated date of birth is 2000-05-15. -/
theorem c7_estimated_dob_tiebreak_witness :
    ((resolve estIdent envEst).mlbam_id = "910001" ∧
      (resolve estIdent envEst).match_method = "name_plus_est_dob_unique" ∧
      (resolve estIdent envEst).match_status = "matched_name_with_tiebreak") ∧
    (∀ (ids : List String) (sEst : String)
        (m : List (String × Option DateYMD)) (tol : Nat) (c : String),
      tie_break_by_estimated_dob ids sEst m tol = some c →
      dget m c none ≠ none) :=
  c7_estimated_dob_tiebreak estIdent envEst "910001" "910002"
    ⟨2000, 5, 15⟩ ⟨2000, 5, 25⟩ ⟨2000, 7, 4⟩ rfl rfl rfl rfl (by decide)
    (by decide) (by decide) (by decide) (by decide) (by decide) (by decide)

theorem stage1_cases (i : IdentityRow) (E : Env) :
    (stage1 i E).1 = "" ∨
    (∃ u, u ≠ "" ∧ stage1 i E = (u, "exact_name_dob", "matched_exact_name_dob") ∧
      sortedDedup (rule1Cands i E) = [u]) := by
  unfold stage1
  cases hdob : hasDob i with
  | false => left; simp [hdob]
  | true =>
    cases ht : truthy (unique_or_none (rule1Cands i E)) with
    | none => left; simp [hdob, ht]
    | some u =>
      right
      rcases truthy_eq_some ht with ⟨huon, hne⟩
      exact ⟨u, hne, by simp [hdob, ht], unique_or_none_eq_some huon⟩

theorem stage2_cases (i : IdentityRow) (E : Env) :
    (stage2 i E).1 = "" ∨
    (∃ u, u ≠ "" ∧ stage2 i E = (u, "exact_name_dob", "matched_exact_name_dob") ∧
      sortedDedup (rule1Cands i E) = [u]) ∨
    (∃ u, u ≠ "" ∧ stage2 i E = (u, "lastname_dob", "matched_lastname_dob") ∧
      sortedDedup (rule2Cands i E) = [u]) := by
  rcases stage1_cases i E with h1 | ⟨u, hne, hval, hset⟩
  · unfold stage2
    cases hdob : hasDob i with
    | false => left; simp [h1, hdob]
    | true =>
      cases ht : truthy (unique_or_none (rule2Cands i E)) with
      | none => left; simp [h1, hdob, ht]
      | some u2 =>
        right; right
        rcases truthy_eq_some ht with ⟨huon, hne2⟩
        exact ⟨u2, hne2, by simp [h1, hdob, ht], unique_or_none_eq_some huon⟩
  · right; left
    refine ⟨u, hne, ?_, hset⟩
    unfold stage2
    simp [hval, hne]

theorem tieA_cases (i : IdentityRow) (E : Env) :
    tieA i E = (none, "", "") ∨
    (∃ h, tieA i E = (some h, "name_plus_org_unique", "matched_name_with_tiebreak") ∧
      tieAHits i E = [h]) := by
  unfold tieA
  by_cases hc : (!(identOrgTokens i).isEmpty && !(r3CandUnique i E).isEmpty) = true
  · cases hp : pickUnique (tieAHits i E) with
    | none => left; simp [hc, hp]
    | some h => right; exact ⟨h, by simp [hc, hp], pickUnique_eq_some hp⟩
  · left; simp [hc]

theorem tieB_cases (i : IdentityRow) (E : Env) :
    tieB i E = (none, "", "") ∨
    (∃ h, tieB i E = (some h, "name_plus_org_unique", "matched_name_with_tiebreak") ∧
      tieAHits i E = [h]) ∨
    (∃ h, tieB i E = (some h, "name_plus_est_dob_unique", "matched_name_with_tiebreak") ∧
      ∃ est, parse_date_ymd i.dob_est_ymd = some est ∧
        estDobHits (r3CandUnique i E) est E.dob_by_id 45 = [h]) := by
  rcases tieA_cases i E with ha | ⟨h, hval, hset⟩
  · unfold tieB
    by_cases hcu : (!(r3CandUnique i E).isEmpty) = true
    · cases htb : tie_break_by_estimated_dob (r3CandUnique i E) i.dob_est_ymd
          E.dob_by_id 45 with
      | none => left; simp [ha, hcu, htb]
      | some ch =>
        right; right
        refine ⟨ch, by simp [ha, hcu, htb], ?_⟩
        unfold tie_break_by_estimated_dob at htb
        cases hp : parse_date_ymd i.dob_est_ymd with
        | none => rw [hp] at htb; simp at htb
        | some est =>
          rw [hp] at htb
          exact ⟨est, rfl, pickUnique_eq_some htb⟩
    · left; simp [ha, hcu]
  · right; left
    refine ⟨h, ?_, hset⟩
    unfold tieB
    simp [hval]

theorem tieC_cases (i : IdentityRow) (E : Env) :
    tieC i E = (none, "", "") ∨
    (∃ h, tieC i E = (some h, "name_plus_org_unique", "matched_name_with_tiebreak") ∧
      tieAHits i E = [h]) ∨
    (∃ h, tieC i E = (some h, "name_plus_est_dob_unique", "matched_name_with_tiebreak") ∧
      ∃ est, parse_date_ymd i.dob_est_ymd = some est ∧
        estDobHits (r3CandUnique i E) est E.dob_by_id 45 = [h]) ∨
    (∃ h, tieC i E = (some h, "name_plus_est_yob_unique", "matched_name_with_tiebreak") ∧
      tieCHits i E = [h]) := by
  unfold tieC
  split
  · cases hp : pickUnique (tieCHits i E) with
    | some h =>
      right; right; right
      exact ⟨h, by simp [hp], pickUnique_eq_some hp⟩
    | none =>
      rcases tieB_cases i E with hb | ⟨h, hval, hset⟩ | ⟨h, hval, hset⟩
      · left; simp [hp, hb]
      · right; left; exact ⟨h, by simp [hp, hval], hset⟩
      · right; right; left; exact ⟨h, by simp [hp, hval], hset⟩
  · rcases tieB_cases i E with hb | ⟨h, hval, hset⟩ | ⟨h, hval, hset⟩
    · left; exact hb
    · right; left; exact ⟨h, hval, hset⟩
    · right; right; left; exact ⟨h, hval, hset⟩

theorem stage3_cases (i : IdentityRow) (E : Env) :
    (stage3 i E).1 = "" ∨
    (∃ u, u ≠ "" ∧ stage3 i E = (u, "exact_name_dob", "matched_exact_name_dob") ∧
      sortedDedup (rule1Cands i E) = [u]) ∨
    (∃ u, u ≠ "" ∧ stage3 i E = (u, "lastname_dob", "matched_lastname_dob") ∧
      sortedDedup (rule2Cands i E) = [u]) ∨
    (∃ u, u ≠ "" ∧ stage3 i E = (u, "name_only_unique", "matched_name_only_unique") ∧
      sortedDedup (rule3Cands i E) = [u]) ∨
    (∃ u, u ≠ "" ∧ stage3 i E = (u, "name_plus_org_unique", "matched_name_with_tiebreak") ∧
      tieAHits i E = [u]) ∨
    (∃ u, u ≠ "" ∧ stage3 i E = (u, "name_plus_est_dob_unique", "matched_name_with_tiebreak") ∧
      ∃ est, parse_date_ymd i.dob_est_ymd = some est ∧
        estDobHits (r3CandUnique i E) est E.dob_by_id 45 = [u]) ∨
    (∃ u, u ≠ "" ∧ stage3 i E = (u, "name_plus_est_yob_unique", "matched_name_with_tiebreak") ∧
      tieCHits i E = [u]) := by
  rcases stage2_cases i E with h2 | ⟨u, hne, hval, hset⟩ | ⟨u, hne, hval, hset⟩
  · unfold stage3
    cases ht : truthy (unique_or_none (rule3Cands i E)) with
    | some u =>
      rcases truthy_eq_some ht with ⟨huon, hne⟩
      right; right; right; left
      exact ⟨u, hne, by simp [h2, ht], unique_or_none_eq_some huon⟩
    | none =>
      rcases tieC_cases i E with hcv | ⟨h, hcv, hset⟩ | ⟨h, hcv, hset⟩ | ⟨h, hcv, hset⟩
      · left; simp [h2, ht, hcv]
      · by_cases hh : h = ""
        · left; simp [h2, ht, hcv, hh]
        · right; right; right; right; left
          exact ⟨h, hh, by simp [h2, ht, hcv, hh], hset⟩
      · by_cases hh : h = ""
        · left; simp [h2, ht, hcv, hh]
        · right; right; right; right; right; left
          exact ⟨h, hh, by simp [h2, ht, hcv, hh], hset⟩
      · by_cases hh : h = ""
        · left; simp [h2, ht, hcv, hh]
        · right; right; right; right; right; right
          exact ⟨h, hh, by simp [h2, ht, hcv, hh], hset⟩
  · right; left
    exact ⟨u, hne, by unfold stage3; simp [hval, hne], hset⟩
  · right; right; left
    exact ⟨u, hne, by unfold stage3; simp [hval, hne], hset⟩

theorem guardA_cases (i : IdentityRow) (E : Env) :
    guardA i E = ("", "", "") ∨
    (∃ u, guardA i E = (u, "lastname_plus_yob_est_plus_org_unique",
        "matched_lastname_plus_yob_est_unique") ∧ g1Hits i E = [u]) := by
  unfold guardA
  by_cases hc : (!(identOrgTokens i).isEmpty && !(rule4CandUnique i E).isEmpty) = true
  · cases hp : pickUnique (g1Hits i E) with
    | none => left; simp [hc, hp]
    | some h => right; exact ⟨h, by simp [hc, hp], pickUnique_eq_some hp⟩
  · left; simp [hc]

theorem guardB_cases (i : IdentityRow) (E : Env) :
    (guardB i E).1 = "" ∨
    (∃ u, guardB i E = (u, "lastname_plus_yob_est_plus_org_unique",
        "matched_lastname_plus_yob_est_unique") ∧ g1Hits i E = [u]) ∨
    (∃ u, guardB i E = (u, "lastname_plus_yob_est_plus_first_initial_unique",
        "matched_lastname_plus_yob_est_unique") ∧ g2Hits i E = [u]) := by
  unfold guardB
  split
  · next hcond =>
    split
    · cases hp : pickUnique (g2Hits i E) with
      | some h =>
        right; right
        exact ⟨h, by simp [hp], pickUnique_eq_some hp⟩
      | none =>
        left
        simp [hp]
        exact hcond
    · left; exact hcond
  · next hcond =>
    rcases guardA_cases i E with ha | ⟨u, hval, hset⟩
    · exact absurd (by rw [ha]) hcond
    · right; left
      exact ⟨u, hval, hset⟩

theorem stage4_cases (i : IdentityRow) (E : Env) :
    (stage4 i E).1 = "" ∨
    (∃ u, u ≠ "" ∧ stage4 i E = (u, "exact_name_dob", "matched_exact_name_dob") ∧
      sortedDedup (rule1Cands i E) = [u]) ∨
    (∃ u, u ≠ "" ∧ stage4 i E = (u, "lastname_dob", "matched_lastname_dob") ∧
      sortedDedup (rule2Cands i E) = [u]) ∨
    (∃ u, u ≠ "" ∧ stage4 i E = (u, "name_only_unique", "matched_name_only_unique") ∧
      sortedDedup (rule3Cands i E) = [u]) ∨
    (∃ u, u ≠ "" ∧ stage4 i E = (u, "name_plus_org_unique", "matched_name_with_tiebreak") ∧
      tieAHits i E = [u]) ∨
    (∃ u, u ≠ "" ∧ stage4 i E = (u, "name_plus_est_dob_unique", "matched_name_with_tiebreak") ∧
      ∃ est, parse_date_ymd i.dob_est_ymd = some est ∧
        estDobHits (r3CandUnique i E) est E.dob_by_id 45 = [u]) ∨
    (∃ u, u ≠ "" ∧ stage4 i E = (u, "name_plus_est_yob_unique", "matched_name_with_tiebreak") ∧
      tieCHits i E = [u]) ∨
    (∃ u, stage4 i E = (u, "lastname_plus_yob_est_plus_org_unique",
        "matched_lastname_plus_yob_est_unique") ∧ g1Hits i E = [u]) ∨
    (∃ u, stage4 i E = (u, "lastname_plus_yob_est_plus_first_initial_unique",
        "matched_lastname_plus_yob_est_unique") ∧ g2Hits i E = [u]) := by
  rcases stage3_cases i E with h3 | ⟨u, hne, hval, hset⟩ | ⟨u, hne, hval, hset⟩ |
    ⟨u, hne, hval, hset⟩ | ⟨u, hne, hval, hset⟩ | ⟨u, hne, hval, hset⟩ |
    ⟨u, hne, hval, hset⟩
  · unfold stage4
    by_cases hdig : pyIsDigit (rule4Year i) = true
    · by_cases hlast : rule4Last i ≠ ""
      · rcases guardB_cases i E with hb | ⟨u, hval, hset⟩ | ⟨u, hval, hset⟩
        · left; simp [h3, hdig, hlast, hb]
        · right; right; right; right; right; right; right; left
          exact ⟨u, by simp [h3, hdig, hlast, hval], hset⟩
        · right; right; right; right; right; right; right; right
          exact ⟨u, by simp [h3, hdig, hlast, hval], hset⟩
      · left; simp [h3, hdig, hlast]
    · left; simp [h3, hdig]
  · right; left
    exact ⟨u, hne, by unfold stage4; simp [hval, hne], hset⟩
  · right; right; left
    exact ⟨u, hne, by unfold stage4; simp [hval, hne], hset⟩
  · right; right; right; left
    exact ⟨u, hne, by unfold stage4; simp [hval, hne], hset⟩
  · right; right; right; right; left
    exact ⟨u, hne, by unfold stage4; simp [hval, hne], hset⟩
  · right; right; right; right; right; left
    exact ⟨u, hne, by unfold stage4; simp [hval, hne], hset⟩
  · right; right; right; right; right; right; left
    exact ⟨u, hne, by unfold stage4; simp [hval, hne], hset⟩

theorem resolve_mlbam_empty_of_stage4 {i : IdentityRow} {E : Env}
    (h : (stage4 i E).1 = "") : (resolve i E).mlbam_id = "" := by
  unfold resolve
  simp [h, apply_ite]

theorem resolve_of_stage4 {i : IdentityRow} {E : Env} {u M S : String}
    (hval : stage4 i E = (u, M, S)) (hu : u ≠ "") :
    resolve i E = ⟨u, M, S, sortedDedup (rules123Union i E)⟩ := by
  unfold resolve
  simp [hval, hu]

/-- Claim C5: whenever `resolve` assigns a nonempty chosen id — at rules
1, 2 and 3, at each of the three rule-3 tie-breaks, and at both rule-4
guards — the deduplicated set of candidate ids examined at that assignment
point is exactly the singleton of the chosen id; an id is never drawn from
a set with two or more distinct ids. -/
theorem c5_unique_candidate_invariant (ident : IdentityRow) (E : Env)
    (h : (resolve ident E).mlbam_id ≠ "") : uniqueSelection ident E := by
  rcases stage4_cases ident E with h4 | ⟨u, hne, hval, hset⟩ | ⟨u, hne, hval, hset⟩ |
    ⟨u, hne, hval, hset⟩ | ⟨u, hne, hval, hset⟩ | ⟨u, hne, hval, hset⟩ |
    ⟨u, hne, hval, hset⟩ | ⟨u, hval, hset⟩ | ⟨u, hval, hset⟩
  · exact absurd (resolve_mlbam_empty_of_stage4 h4) h
  · have hr := resolve_of_stage4 hval hne
    left
    rw [hr]
    exact ⟨rfl, hset⟩
  · have hr := resolve_of_stage4 hval hne
    right; left
    rw [hr]
    exact ⟨rfl, hset⟩
  · have hr := resolve_of_stage4 hval hne
    right; right; left
    rw [hr]
    exact ⟨rfl, hset⟩
  · have hr := resolve_of_stage4 hval hne
    right; right; right; left
    rw [hr]
    exact ⟨rfl, hset⟩
  · have hr := resolve_of_stage4 hval hne
    right; right; right; right; left
    rw [hr]
    exact ⟨rfl, hset⟩
  · have hr := resolve_of_stage4 hval hne
    right; right; right; right; right; left
    rw [hr]
    exact ⟨rfl, hset⟩
  · by_cases hu : u = ""
    · subst hu
      exact absurd (resolve_mlbam_empty_of_stage4 (by rw [hval])) h
    · have hr := resolve_of_stage4 hval hu
      right; right; right; right; right; right; left
      rw [hr]
      exact ⟨rfl, hset⟩
  · by_cases hu : u = ""
    · subst hu
      exact absurd (resolve_mlbam_empty_of_stage4 (by rw [hval])) h
    · have hr := resolve_of_stage4 hval hu
      right; right; right; right; right; right; right
      rw [hr]
      exact ⟨rfl, hset⟩

/-- Claim C5 witness: the invariant instantiated at the Jose Perez
scenario, where the chosen id 700001 is nonempty. -/
theorem c5_unique_candidate_invariant_witness :
    uniqueSelection joseIdent envJose :=
  c5_unique_candidate_invariant joseIdent envJose (by decide)

/-- Claim C2 amended: the candidate output field and the final
classification are computed from the deduplicated union of the candidates
of rules 1 to 3 only (rule 4 keeps its candidates in a separate variable
that never enters the union): when no id was chosen, more than one
distinct id in that union gives `ambiguous_multiple_candidates` and an
empty union gives `unmatched_no_candidate`. -/
theorem resolve_candidates (i : IdentityRow) (E : Env) :
    (resolve i E).candidate_mlbam_ids = sortedDedup (rules123Union i E) := by
  simp only [resolve]
  split
  · rfl
  · split <;> rfl

theorem resolve_of_stage4_empty {i : IdentityRow} {E : Env}
    (h : (stage4 i E).1 = "") :
    resolve i E =
      if 1 < (sortedDedup (rules123Union i E)).length then
        ⟨"", "none", "ambiguous_multiple_candidates", sortedDedup (rules123Union i E)⟩
      else ⟨"", "none", "unmatched_no_candidate", sortedDedup (rules123Union i E)⟩ := by
  simp only [resolve, h]
  simp

theorem c2_classification_amended (ident : IdentityRow) (E : Env) :
    (resolve ident E).candidate_mlbam_ids = sortedDedup (rules123Union ident E) ∧
    ((resolve ident E).mlbam_id = "" →
      ((1 < (sortedDedup (rules123Union ident E)).length →
          (resolve ident E).match_status = "ambiguous_multiple_candidates") ∧
        (sortedDedup (rules123Union ident E) = [] →
          (resolve ident E).match_status = "unmatched_no_candidate"))) := by
  refine ⟨resolve_candidates ident E, ?_⟩
  intro hid
  by_cases hs : (stage4 ident E).1 = ""
  · constructor
    · intro hlen
      rw [resolve_of_stage4_empty hs, if_pos hlen]
    · intro hnil
      rw [resolve_of_stage4_empty hs, if_neg (by rw [hnil]; simp)]
  · exfalso
    have hval : (resolve ident E).mlbam_id = (stage4 ident E).1 := by
      simp only [resolve]
      rw [if_pos hs]
    rw [hval] at hid
    exact hs hid

/-- Claim C2 witness: the amended classification applied to the concrete
rule-4 scenario `r4Ident` against `envR4`. -/
theorem c2_classification_amended_witness :
    (resolve r4Ident envR4).match_status = "unmatched_no_candidate" :=
  ((c2_classification_amended r4Ident envR4).2 (by decide)).2 (by decide)

theorem lookup_mem_cf :
    ∀ (l : List (Char × List Char)) (k : Char) (r : List Char),
      l.lookup k = some r → (k, r) ∈ l := by
  intro l
  induction l with
  | nil => intro k r h; simp [List.lookup] at h
  | cons p rest ih =>
    intro k r h
    rcases p with ⟨a, b⟩
    by_cases hk : a = k
    · subst hk
      simp [List.lookup] at h
      subst h
      exact List.mem_cons_self _ _
    · have hk2 : (k == a) = false := by
        simp [beq_iff_eq]
        intro hx
        exact hk hx.symm
      simp [List.lookup, hk2] at h
      exact List.mem_cons_of_mem _ (ih k r h)

theorem casefoldTable_no_relookup :
    ∀ p ∈ casefoldTable, ∀ d ∈ p.2, casefoldTable.lookup d = none := by
  decide

theorem casefoldChar_fixed_of_mem {c d : Char} (h : d ∈ casefoldChar c) :
    casefoldChar d = [d] := by
  unfold casefoldChar at h ⊢
  cases hl : casefoldTable.lookup c with
  | none =>
    rw [hl] at h
    simp at h
    subst h
    rw [hl]
  | some r =>
    rw [hl] at h
    have hmem := lookup_mem_cf casefoldTable c r hl
    rw [casefoldTable_no_relookup (c, r) hmem d h]

theorem mem_punct_map_nonspace {z : List Char} {d : Char}
    (h : d ∈ z.map punctToSpace) (hns : isPySpace d = false) :
    isWordChar d = true ∧ d ∈ z := by
  rcases List.mem_map.mp h with ⟨c0, hc0, heq⟩
  unfold punctToSpace at heq
  by_cases hcond : (isWordChar c0 || isPySpace c0) = true
  · rw [if_pos hcond] at heq
    subst heq
    rcases Bool.or_eq_true_iff.mp hcond with hw | hs
    · exact ⟨hw, hc0⟩
    · rw [hs] at hns; exact absurd hns (by simp)
  · rw [if_neg hcond] at heq
    subst heq
    exact absurd hns (by simp [isPySpace])

theorem wordsAux_sound :
    ∀ (l acc : List Char), (∀ c ∈ acc, isPySpace c = false) →
      ∀ t ∈ wordsAux l acc,
        t ≠ [] ∧ ∀ c ∈ t, isPySpace c = false ∧ (c ∈ l ∨ c ∈ acc) := by
  intro l
  induction l with
  | nil =>
    intro acc hacc t ht
    by_cases ha : acc.isEmpty
    · simp [wordsAux, ha] at ht
    · simp [wordsAux, ha] at ht
      subst ht
      refine ⟨?_, ?_⟩
      · intro h0
        rw [List.reverse_eq_nil_iff] at h0
        rw [h0] at ha
        exact ha rfl
      · intro c hc
        rw [List.mem_reverse] at hc
        exact ⟨hacc c hc, Or.inr hc⟩
  | cons c0 rest ih =>
    intro acc hacc t ht
    by_cases hsp : isPySpace c0 = true
    · by_cases ha : acc.isEmpty
      · simp only [wordsAux, hsp, if_true, ha] at ht
        rcases ih [] (by simp) t ht with ⟨h1, h2⟩
        refine ⟨h1, fun c hc => ⟨(h2 c hc).1, ?_⟩⟩
        rcases (h2 c hc).2 with h | h
        · exact Or.inl (List.mem_cons_of_mem _ h)
        · simp at h
      · simp only [wordsAux, hsp, if_true, ha, if_false] at ht
        rcases List.mem_cons.mp ht with ht | ht
        · subst ht
          refine ⟨?_, ?_⟩
          · intro h0
            rw [List.reverse_eq_nil_iff] at h0
            rw [h0] at ha
            exact ha rfl
          · intro c hc
            rw [List.mem_reverse] at hc
            exact ⟨hacc c hc, Or.inr hc⟩
        · rcases ih [] (by simp) t ht with ⟨h1, h2⟩
          refine ⟨h1, fun c hc => ⟨(h2 c hc).1, ?_⟩⟩
          rcases (h2 c hc).2 with h | h
          · exact Or.inl (List.mem_cons_of_mem _ h)
          · simp at h
    · have hsp' : isPySpace c0 = false := by simpa using hsp
      have hacc' : ∀ c ∈ (c0 :: acc), isPySpace c = false := by
        intro c hc
        rcases List.mem_cons.mp hc with h | h
        · subst h; exact hsp'
        · exact hacc c h
      simp only [wordsAux, hsp', Bool.false_eq_true, if_false] at ht
      rcases ih (c0 :: acc) hacc' t ht with ⟨h1, h2⟩
      refine ⟨h1, fun c hc => ⟨(h2 c hc).1, ?_⟩⟩
      rcases (h2 c hc).2 with h | h
      · exact Or.inl (List.mem_cons_of_mem _ h)
      · rcases List.mem_cons.mp h with h | h
        · exact Or.inl (by simp [h])
        · exact Or.inr h

theorem words_sound (x : List Char) :
    ∀ t ∈ words x, t ≠ [] ∧ ∀ c ∈ t, isPySpace c = false ∧ c ∈ x := by
  intro t ht
  rcases wordsAux_sound x [] (by simp) t ht with ⟨h1, h2⟩
  refine ⟨h1, fun c hc => ⟨(h2 c hc).1, ?_⟩⟩
  rcases (h2 c hc).2 with h | h
  · exact h
  · simp at h

theorem wordsAux_word_run (r : List Char) :
    ∀ (w acc : List Char), (∀ c ∈ w, isPySpace c = false) →
      wordsAux (w ++ r) acc = wordsAux r (w.reverse ++ acc) := by
  intro w
  induction w with
  | nil => intro acc h; simp
  | cons c w' ih =>
    intro acc h
    have hc : isPySpace c = false := h c (by simp)
    simp only [List.cons_append, wordsAux, hc, Bool.false_eq_true, if_false,
      List.append_eq]
    rw [ih (c :: acc) (fun c0 hc0 => h c0 (by simp [hc0]))]
    simp

theorem isPySpace_space : isPySpace ' ' = true := rfl

theorem words_no_space (w : List Char) (hw : w ≠ [])
    (h : ∀ c ∈ w, isPySpace c = false) : words w = [w] := by
  unfold words
  have h0 := wordsAux_word_run [] w [] h
  rw [List.append_nil] at h0
  rw [h0]
  have hrev : w.reverse.isEmpty = false := by
    rw [List.isEmpty_eq_false_iff_exists_mem]
    rcases List.exists_mem_of_ne_nil w hw with ⟨c, hc⟩
    exact ⟨c, List.mem_reverse.mpr hc⟩
  simp [wordsAux, hrev]

theorem words_append_space (w rest : List Char) (hw : w ≠ [])
    (h : ∀ c ∈ w, isPySpace c = false) :
    words (w ++ ' ' :: rest) = w :: words rest := by
  unfold words
  rw [wordsAux_word_run (' ' :: rest) w [] h]
  have hrev : w.reverse.isEmpty = false := by
    rw [List.isEmpty_eq_false_iff_exists_mem]
    rcases List.exists_mem_of_ne_nil w hw with ⟨c, hc⟩
    exact ⟨c, List.mem_reverse.mpr hc⟩
  simp [wordsAux, isPySpace_space, hrev]

theorem words_joinSpace :
    ∀ (ws : List (List Char)),
      (∀ w ∈ ws, w ≠ [] ∧ ∀ c ∈ w, isPySpace c = false) →
        words (joinSpace ws) = ws := by
  intro ws
  induction ws with
  | nil => intro _; rfl
  | cons w rest ih =>
    intro h
    rcases h w (by simp) with ⟨hw, hcs⟩
    cases rest with
    | nil => simpa [joinSpace] using words_no_space w hw hcs
    | cons w2 r2 =>
      have hj : joinSpace (w :: w2 :: r2) = w ++ ' ' :: joinSpace (w2 :: r2) := rfl
      rw [hj, words_append_space w _ hw hcs,
        ih (fun w0 hw0 => h w0 (List.mem_cons_of_mem _ hw0))]

theorem mem_dropTrailingSuffixes {ts : List (List Char)} {t : List Char}
    (h : t ∈ dropTrailingSuffixes ts) : t ∈ ts := by
  unfold dropTrailingSuffixes at h
  rw [List.mem_reverse] at h
  have := (List.dropWhile_sublist (fun t => decide (t ∈ suffixTokens))).subset h
  rw [List.mem_reverse] at this
  exact this

theorem mem_joinSpace :
    ∀ (ts : List (List Char)) (c : Char), c ∈ joinSpace ts →
      c = ' ' ∨ ∃ t ∈ ts, c ∈ t := by
  intro ts
  induction ts with
  | nil => intro c hc; simp [joinSpace] at hc
  | cons w rest ih =>
    intro c hc
    cases rest with
    | nil =>
      right
      exact ⟨w, by simp, by simpa [joinSpace] using hc⟩
    | cons w2 r2 =>
      have hj : joinSpace (w :: w2 :: r2) = w ++ ' ' :: joinSpace (w2 :: r2) := rfl
      rw [hj] at hc
      rcases List.mem_append.mp hc with hc | hc
      · right; exact ⟨w, by simp, hc⟩
      · rcases List.mem_cons.mp hc with hc | hc
        · left; exact hc
        · rcases ih c hc with hc | ⟨t, ht, hct⟩
          · left; exact hc
          · right; exact ⟨t, List.mem_cons_of_mem _ ht, hct⟩

theorem casefoldL_fixed :
    ∀ (z : List Char), (∀ c ∈ z, casefoldChar c = [c]) → casefoldL z = z := by
  intro z
  induction z with
  | nil => intro _; rfl
  | cons c z' ih =>
    intro h
    unfold casefoldL
    rw [List.flatMap_cons, h c (by simp)]
    have := ih (fun c0 hc0 => h c0 (List.mem_cons_of_mem _ hc0))
    unfold casefoldL at this
    rw [this]
    rfl

theorem map_punct_id :
    ∀ (z : List Char), (∀ c ∈ z, punctToSpace c = c) → z.map punctToSpace = z := by
  intro z
  induction z with
  | nil => intro _; rfl
  | cons c z' ih =>
    intro h
    rw [List.map_cons, h c (by simp), ih (fun c0 hc0 => h c0 (List.mem_cons_of_mem _ hc0))]

theorem dropWhile_dropWhile {α : Type} (p : α → Bool) :
    ∀ (l : List α), (l.dropWhile p).dropWhile p = l.dropWhile p := by
  intro l
  induction l with
  | nil => rfl
  | cons a l' ih =>
    by_cases ha : p a = true
    · simp [List.dropWhile_cons, ha, ih]
    · simp [List.dropWhile_cons, ha]

theorem dropTrailingSuffixes_idem (ts : List (List Char)) :
    dropTrailingSuffixes (dropTrailingSuffixes ts) = dropTrailingSuffixes ts := by
  unfold dropTrailingSuffixes
  rw [List.reverse_reverse, dropWhile_dropWhile]

theorem punctToSpace_fixed {c : Char} (h : isWordChar c = true ∨ c = ' ') :
    punctToSpace c = c := by
  unfold punctToSpace
  rcases h with h | h
  · rw [if_pos (by simp [h])]
  · subst h
    rfl

theorem npnTokens_good (l : List Char) :
    ∀ t ∈ npnTokens l,
      (t ≠ [] ∧ ∀ c ∈ t, isPySpace c = false) ∧
        ∀ c ∈ t, isWordChar c = true ∧ casefoldChar c = [c] := by
  intro t ht
  have htw := mem_dropTrailingSuffixes ht
  rcases words_sound _ t htw with ⟨h1, h2⟩
  refine ⟨⟨h1, fun c hc => (h2 c hc).1⟩, ?_⟩
  intro c hc
  rcases h2 c hc with ⟨hns, hz⟩
  rcases mem_punct_map_nonspace hz hns with ⟨hw, hzc⟩
  rcases List.mem_flatMap.mp hzc with ⟨c1, _, hcf⟩
  exact ⟨hw, casefoldChar_fixed_of_mem hcf⟩

theorem npnL_idem (l : List Char) : npnL (npnL l) = npnL l := by
  have hTgood : ∀ t ∈ npnTokens l, t ≠ [] ∧ ∀ c ∈ t, isPySpace c = false :=
    fun t ht => (npnTokens_good l t ht).1
  have hTchar : ∀ t ∈ npnTokens l, ∀ c ∈ t, isWordChar c = true ∧ casefoldChar c = [c] :=
    fun t ht => (npnTokens_good l t ht).2
  have hwords : words (npnL l) = npnTokens l := words_joinSpace _ hTgood
  have hjoin : joinSpace (words (npnL l)) = npnL l := by rw [hwords]; rfl
  have hcharsAll : ∀ c ∈ npnL l, casefoldChar c = [c] ∧ punctToSpace c = c := by
    intro c hc
    rcases mem_joinSpace (npnTokens l) c hc with hsp | ⟨t, ht, hct⟩
    · subst hsp
      exact ⟨by decide, by decide⟩
    · rcases hTchar t ht c hct with ⟨hw, hcf⟩
      exact ⟨hcf, punctToSpace_fixed (Or.inl hw)⟩
  have hcf : casefoldL (npnL l) = npnL l :=
    casefoldL_fixed _ (fun c hc => (hcharsAll c hc).1)
  have hpm : (npnL l).map punctToSpace = npnL l :=
    map_punct_id _ (fun c hc => (hcharsAll c hc).2)
  have hdts : dropTrailingSuffixes (npnTokens l) = npnTokens l := by
    unfold npnTokens
    exact dropTrailingSuffixes_idem _
  show joinSpace (npnTokens (npnL l)) = npnL l
  unfold npnTokens
  rw [hjoin, hcf, hpm, hwords, hdts]
  rfl

/-- Claim C8: the full-name normalizer used for index #3
(`normalize_person_name_for_match`) is idempotent: normalizing an already
normalized name changes nothing, so normalizing the same raw name on the
identity side and the spine side yields an identical key. -/
theorem c8_normalizer_idempotent (x : String) :
    normalize_person_name_for_match (normalize_person_name_for_match x) =
      normalize_person_name_for_match x := by
  unfold normalize_person_name_for_match
  exact congrArg String.mk (npnL_idem x.data)

end IdentityMap
